import Mathlib

/-!
Shallow embedding of the tarpc client request-dispatch machinery
(src/tarpc/src/client/channel.rs) together with the in-flight request
table it uses (whose implementation, client/in_flight_requests.rs, is not
part of the sources; those operations are modelled from the spec, section
4.2, and are marked as such).

Modelling conventions:
* Machine integers are Nat.  The shared request-id counter is an
  AtomicUsize in the source; fetch_add on Rust atomics wraps on overflow,
  so the counter arithmetic is taken modulo 2 ^ 64 (the source's
  CHECK_USIZE constant guarantees usize is at most 64 bits wide; we model
  the common 64-bit platform).
* tokio mpsc queues are lists plus a closed flag (the flag is what the
  receiver observes when every sender has been dropped); tokio oneshot
  channels are slot records held in an arena, indexed by creation order,
  so that both the caller-side handle and the dispatcher-side sender can
  refer to the same shared cell.
* The frame transport is modelled as always ready for writes (poll_ready
  succeeds and poll_flush completes immediately); `sent` is the list of
  frames handed to start_send, `incoming` the frames not yet read, and
  `read_closed` records end-of-stream after them.
* Randomness (SpanId::random) is an explicit oracle argument, and the
  absolute time used by the deadline wheel is a `now` field that only an
  explicit environment step advances.
-/

/-- Coarse io::ErrorKind values that the client code produces or passes
through. -/
inductive IoErrorKind where
  | connectionReset
  | deadlineExceeded
  | other
deriving DecidableEq, Repr

/-- Trace context triple carried on every request (spec section 3). -/
structure TraceContext where
  trace_id : Nat
  span_id : Nat
  parent_id : Option Nat
deriving DecidableEq, Repr

/-- Call context: absolute deadline plus trace context. -/
structure Context where
  deadline : Nat
  trace_context : TraceContext
deriving DecidableEq, Repr

/-- Modelled from the spec: ServerError carries a coarse kind and an
optional message (spec sections 3 and 7); its definition is not under
src/. -/
structure ServerError where
  kind : IoErrorKind
  detail : Option String
deriving DecidableEq, Repr

deriving instance DecidableEq for Except

/-- Modelled from the spec: ServerMessage / Response is a request id plus
a result of payload or ServerError (spec section 3); its definition is not
under src/. -/
structure Response (Resp : Type) where
  request_id : Nat
  message : Except ServerError Resp
deriving DecidableEq, Repr

/-- Modelled from the spec: the Request frame payload (spec section 6);
its definition is not under src/. -/
structure Request (Req : Type) where
  id : Nat
  message : Req
  context : Context
deriving DecidableEq, Repr

/-- Modelled from the spec: ClientMessage is a tagged union of Request
and Cancel frames (spec sections 3 and 6); its definition is not under
src/. -/
inductive ClientMessage (Req : Type) where
  | request : Request Req → ClientMessage Req
  | cancel : TraceContext → Nat → ClientMessage Req
deriving DecidableEq, Repr

/-- One oneshot channel together with the state of the DispatchResponse
handle that owns its receiving half.  `recv` is the value buffered in the
channel, `closed` records Receiver::close (or consumption of the handle),
`senderGone` records that the sending half was dropped or used, and
`complete` is the DispatchResponse.complete flag. -/
structure Slot (Resp : Type) where
  recv : Option (Response Resp)
  closed : Bool
  senderGone : Bool
  complete : Bool
  request_id : Nat
deriving DecidableEq, Repr

/-- A server-bound request staged from a Channel to request dispatch
(struct DispatchRequest).  `response_completion` is the index of the
oneshot slot whose sending half travels with the request. -/
structure DispatchRequest (Req : Type) where
  ctx : Context
  request_id : Nat
  request : Req
  response_completion : Nat
deriving DecidableEq, Repr

/-- Modelled from the spec: a client-side in-flight entry stores the call
context and the response-delivery slot (spec section 3); the table
implementation is not under src/.  The deadline timer is the ctx.deadline
field interpreted against the ambient clock. -/
structure InFlightEntry where
  ctx : Context
  slot : Nat
deriving DecidableEq, Repr

/-- Modelled from the spec: client configuration options (spec section 6);
client/mod.rs is not under src/. -/
structure Config where
  max_in_flight_requests : Nat
  pending_request_buffer : Nat
deriving DecidableEq, Repr

/-- The whole client-side state: the shared Channel state (counter,
queues, slot arena), the RequestDispatch state (in-flight table,
transport ends) and the modelling clock.  `total_sends` is ghost
bookkeeping counting how many sends ever happened (the wrapped counter
`next_request_id` equals `total_sends` modulo 2 ^ 64). -/
structure Sys (Req Resp : Type) where
  config : Config
  next_request_id : Nat
  total_sends : Nat
  slots : List (Slot Resp)
  pending_requests : List (DispatchRequest Req)
  pending_closed : Bool
  canceled_requests : List Nat
  canceled_closed : Bool
  in_flight_requests : List (Nat × InFlightEntry)
  sent : List (ClientMessage Req)
  incoming : List (Response Resp)
  read_closed : Bool
  now : Nat
deriving DecidableEq, Repr

/-- The modulus of the request-id counter: AtomicUsize::fetch_add wraps,
and usize is 64 bits wide on the modelled platform (CHECK_USIZE in the
source rules out anything wider). -/
def USIZE_MOD : Nat := 2 ^ 64

/-- One next_request_id.fetch_add(1, Relaxed): returns the previous value
and the wrapped incremented counter (Channel::send, channel.rs line 70). -/
def fetchAddNextId (c : Nat) : Nat × Nat := (c, (c + 1) % USIZE_MOD)

/-- Counter value after k sends on a freshly created channel (the counter
starts at 0, channel.rs line 177). -/
def nthCounter : Nat → Nat
  | 0 => 0
  | k + 1 => (fetchAddNextId (nthCounter k)).2

/-- Request id allocated by the k-th send (0-indexed) on one channel. -/
def nthRequestId (k : Nat) : Nat := (fetchAddNextId (nthCounter k)).1

/-- Whether the oneshot receiver of slot i is closed, as observed by
Sender::is_closed.  A dangling index counts as closed. -/
def slotClosed {Resp : Type} (slots : List (Slot Resp)) (i : Nat) : Bool :=
  match slots[i]? with
  | some sl => sl.closed
  | none => true

/-- Receiver::close on slot i (DispatchResponse drop, channel.rs line 153). -/
def closeReceiverAt {Resp : Type} (slots : List (Slot Resp)) (i : Nat) : List (Slot Resp) :=
  match slots[i]? with
  | some sl => slots.set i { sl with closed := true }
  | none => slots

/-- Dropping the sending half of slot i without sending a value. -/
def dropSenderAt {Resp : Type} (slots : List (Slot Resp)) (i : Nat) : List (Slot Resp) :=
  match slots[i]? with
  | some sl => slots.set i { sl with senderGone := true }
  | none => slots

/-- Sending a response into slot i: the value is buffered only if the
receiver is still open, and the sending half is consumed either way. -/
def deliverAt {Resp : Type} (slots : List (Slot Resp)) (i : Nat) (r : Response Resp) :
    List (Slot Resp) :=
  match slots[i]? with
  | some sl =>
      slots.set i { sl with senderGone := true,
                            recv := if sl.closed then sl.recv else some r }
  | none => slots

/-- Lookup of an id in the in-flight table. -/
def lookupEntry : List (Nat × InFlightEntry) → Nat → Option InFlightEntry
  | [], _ => none
  | p :: rest, id => if p.1 = id then some p.2 else lookupEntry rest id

/-- Removal of (the first entry for) an id from the in-flight table. -/
def removeEntry : List (Nat × InFlightEntry) → Nat → List (Nat × InFlightEntry)
  | [], _ => []
  | p :: rest, id => if p.1 = id then rest else p :: removeEntry rest id

/-- Modelled from the spec: insert(id, context, response_slot) registers a
new entry and fails with DuplicateId if the id is already present (spec
section 4.2); client/in_flight_requests.rs is not under src/. -/
def insertRequest (t : List (Nat × InFlightEntry)) (id : Nat) (ctx : Context) (slot : Nat) :
    Option (List (Nat × InFlightEntry)) :=
  if (lookupEntry t id).isSome then none
  else some (t ++ [(id, { ctx := ctx, slot := slot })])

/-- Modelled from the spec: poll_expired yields an (id, context) pair
whose deadline has elapsed, removing the entry from the table (spec
section 4.2); client/in_flight_requests.rs is not under src/. -/
def findExpiredEntry (now : Nat) : List (Nat × InFlightEntry) → Option (Nat × InFlightEntry)
  | [] => none
  | p :: rest => if p.2.ctx.deadline ≤ now then some p else findExpiredEntry now rest

/-- Poll result of the poll_next_request / poll_next_cancellation helpers
(a PollIo value with the error case unreachable in this model): Pending,
Ready(None) = the queue is closed, or Ready(Some item). -/
inductive PollRecv (α : Type) where
  | pending
  | closed
  | item : α → PollRecv α
deriving DecidableEq, Repr

/-- Whether a PollRecv value is the closed (Ready None) case, the
ReceiverStatus::Closed of pump_write. -/
def PollRecv.isClosed {α : Type} : PollRecv α → Bool
  | .closed => true
  | _ => false

/-- Channel::send (channel.rs lines 59-98): rewrite the trace context
(parent_id becomes the old span_id, then span_id becomes the fresh
random value), fetch-add a
request id, create the oneshot pair plus the DispatchResponse handle
(its slot record), and stage the DispatchRequest onto the bounded pending
queue.  A send on a closed queue fails and is surfaced as an io::Error of
kind ConnectionReset (line 94).  On success the new state and the
allocated request id are returned.  freshSpan is the randomness oracle. -/
def channelSend {Req Resp : Type} (s : Sys Req Resp) (ctx : Context) (request : Req)
    (freshSpan : Nat) : Except IoErrorKind (Sys Req Resp × Nat) :=
  let tc := ctx.trace_context
  let ctx' : Context :=
    { ctx with trace_context := { tc with parent_id := some tc.span_id, span_id := freshSpan } }
  let alloc := fetchAddNextId s.next_request_id
  let request_id := alloc.1
  let slotIdx := s.slots.length
  let slot : Slot Resp :=
    { recv := none, closed := false, senderGone := false, complete := false,
      request_id := request_id }
  if s.pending_closed then
    .error .connectionReset
  else
    .ok ({ s with
            next_request_id := alloc.2,
            total_sends := s.total_sends + 1,
            slots := s.slots ++ [slot],
            pending_requests := s.pending_requests ++
              [{ ctx := ctx', request_id := request_id, request := request,
                 response_completion := slotIdx }] },
         request_id)

/-- Future::poll for DispatchResponse (channel.rs lines 120-136), as a
function of the slot shared with the dispatcher: a buffered response
resolves to its message (a ServerError surfacing with its kind); a
dropped sender with no value (oneshot RecvError) resolves to an io::Error
of kind ConnectionReset; otherwise the future is pending (none). -/
def dispatchResponsePoll {Resp : Type} (sl : Slot Resp) : Option (Except IoErrorKind Resp) :=
  match sl.recv with
  | some r =>
      some (match r.message with
            | .ok v => .ok v
            | .error e => .error e.kind)
  | none => if sl.senderGone then some (.error .connectionReset) else none

/-- The two effects the PinnedDrop impl for DispatchResponse can perform,
in order (channel.rs lines 139-158). -/
inductive DropEffect where
  | closeReceiver : Nat → DropEffect
  | sendCancel : Nat → DropEffect
deriving DecidableEq, Repr

/-- PinnedDrop for DispatchResponse (channel.rs lines 139-158): when the
future is not complete, first close the response receiver, then push the
request id onto the cancellation queue; a complete future does nothing. -/
def dispatchResponseDropEffects (complete : Bool) (slotIdx request_id : Nat) :
    List DropEffect :=
  if complete then [] else [.closeReceiver slotIdx, .sendCancel request_id]

/-- Interpretation of one drop effect on the shared state.  sendCancel is
RequestCancellation::cancel (channel.rs lines 471-476): an unbounded mpsc
send whose result is ignored. -/
def applyDropEffect {Req Resp : Type} (s : Sys Req Resp) : DropEffect → Sys Req Resp
  | .closeReceiver i => { s with slots := closeReceiverAt s.slots i }
  | .sendCancel id => { s with canceled_requests := s.canceled_requests ++ [id] }

/-- The full drop of a DispatchResponse handle, also marking the receiver
side of the oneshot as gone for the dispatcher (the handle owns it). -/
def dropDispatchResponse {Req Resp : Type} (s : Sys Req Resp) (slotIdx : Nat)
    (sl : Slot Resp) : Sys Req Resp :=
  (dispatchResponseDropEffects sl.complete slotIdx sl.request_id).foldl applyDropEffect s

/-- The dequeue loop of RequestDispatch::poll_next_request (channel.rs
lines 307-322): requests whose response slot is already closed are
skipped (dropping their oneshot sender) and the loop continues; the first
live request is yielded; an exhausted queue yields Ready(None) when the
queue is closed and Pending otherwise. -/
def pollNextRequestGo {Req Resp : Type} (s : Sys Req Resp) :
    List (DispatchRequest Req) → PollRecv (DispatchRequest Req) × Sys Req Resp
  | [] => ((if s.pending_closed then .closed else .pending), { s with pending_requests := [] })
  | d :: rest =>
    if slotClosed s.slots d.response_completion then
      pollNextRequestGo { s with slots := dropSenderAt s.slots d.response_completion } rest
    else
      (.item d, { s with pending_requests := rest })

/-- RequestDispatch::poll_next_request (channel.rs lines 280-323): yield
Pending while the in-flight table is at max_in_flight_requests capacity
(no dequeue happens in that case); otherwise wait for transport readiness
(always ready in this model) and run the dequeue loop. -/
def pollNextRequest {Req Resp : Type} (s : Sys Req Resp) :
    PollRecv (DispatchRequest Req) × Sys Req Resp :=
  if s.in_flight_requests.length ≥ s.config.max_in_flight_requests then
    (.pending, s)
  else
    pollNextRequestGo s s.pending_requests

/-- The ClientMessage::Request frame built by RequestDispatch::write_request
(channel.rs lines 361-369). -/
def requestFrame {Req : Type} (d : DispatchRequest Req) : ClientMessage Req :=
  .request { id := d.request_id, message := d.request,
             context := { deadline := d.ctx.deadline, trace_context := d.ctx.trace_context } }

/-- RequestDispatch::write_request (channel.rs lines 357-379): start_send
the Request frame, then insert the in-flight entry; none models the
"Request IDs should be unique" expect firing on a duplicate id. -/
def writeRequest {Req Resp : Type} (s : Sys Req Resp) (d : DispatchRequest Req) :
    Option (Sys Req Resp) :=
  match insertRequest s.in_flight_requests d.request_id d.ctx d.response_completion with
  | some t => some { s with sent := s.sent ++ [requestFrame d], in_flight_requests := t }
  | none => none

/-- The drain loop of RequestDispatch::poll_next_cancellation (channel.rs
lines 340-354): ids absent from the in-flight table are dropped silently;
the first id with an entry has the entry removed (in_flight cancel_request,
modelled from spec section 4.2) and is yielded with its context. -/
def pollNextCancellationGo {Req Resp : Type} (s : Sys Req Resp) :
    List Nat → PollRecv (Context × Nat) × Sys Req Resp
  | [] => ((if s.canceled_closed then .closed else .pending), { s with canceled_requests := [] })
  | id :: rest =>
    match lookupEntry s.in_flight_requests id with
    | some e =>
        (.item (e.ctx, id),
         { s with canceled_requests := rest,
                  in_flight_requests := removeEntry s.in_flight_requests id,
                  slots := dropSenderAt s.slots e.slot })
    | none => pollNextCancellationGo s rest

/-- RequestDispatch::poll_next_cancellation (channel.rs lines 326-355):
wait for transport readiness (always ready in this model) and drain the
cancellation queue. -/
def pollNextCancellation {Req Resp : Type} (s : Sys Req Resp) :
    PollRecv (Context × Nat) × Sys Req Resp :=
  pollNextCancellationGo s s.canceled_requests

/-- RequestDispatch::write_cancel (channel.rs lines 381-394): start_send a
Cancel frame carrying the cancelled request's trace context. -/
def writeCancel {Req Resp : Type} (s : Sys Req Resp) (ctx : Context) (request_id : Nat) :
    Sys Req Resp :=
  { s with sent := s.sent ++ [ClientMessage.cancel ctx.trace_context request_id] }

/-- RequestDispatch::pollExpired step: remove and yield one expired entry
(spec section 4.2; client/in_flight_requests.rs is not under src/).  The
removed entry's oneshot sender is dropped. -/
def pollExpired {Req Resp : Type} (s : Sys Req Resp) :
    Option (Nat × Context) × Sys Req Resp :=
  match findExpiredEntry s.now s.in_flight_requests with
  | none => (none, s)
  | some p =>
      (some (p.1, p.2.ctx),
       { s with in_flight_requests := removeEntry s.in_flight_requests p.1,
                slots := dropSenderAt s.slots p.2.slot })

/-- Result of one pump_read / pump_write call: PollIo progress
(Ready(Some(Ok ()))), Ready(None), or Pending. -/
inductive PumpResult where
  | progress
  | closed
  | pending
deriving DecidableEq, Repr

/-- In-flight complete_request, called from RequestDispatch::complete
(channel.rs lines 396-400; table operation modelled from spec section
4.2): look the response's id up, deliver the message to the entry's slot
and remove the entry; an unknown id changes nothing. -/
def completeRequest {Req Resp : Type} (s : Sys Req Resp) (r : Response Resp) :
    Bool × Sys Req Resp :=
  match lookupEntry s.in_flight_requests r.request_id with
  | none => (false, s)
  | some e =>
      (true,
       { s with in_flight_requests := removeEntry s.in_flight_requests r.request_id,
                slots := deliverAt s.slots e.slot r })

/-- RequestDispatch::pump_read (channel.rs lines 217-227): poll the
transport for a response frame; a frame is completed against the
in-flight table; end-of-stream yields Ready(None). -/
def pumpRead {Req Resp : Type} (s : Sys Req Resp) : PumpResult × Sys Req Resp :=
  match s.incoming with
  | r :: rest => (.progress, (completeRequest { s with incoming := rest } r).2)
  | [] => if s.read_closed then (.closed, s) else (.pending, s)

/-- Tail of RequestDispatch::pump_write (channel.rs lines 244-276) after
the new-request branch did not return: try a cancellation (write_cancel),
then one expired deadline (no frame is written for it); with nothing to
do, flush (immediate in this model) and report Ready(None) exactly when
both receiver statuses are Closed, else Pending. -/
def pumpWriteRest {Req Resp : Type} (s₁ : Sys Req Resp) (pendingStatusClosed : Bool) :
    Option (PumpResult × Sys Req Resp) :=
  match pollNextCancellation s₁ with
  | (.item (ctx, id), s₂) => some (.progress, writeCancel s₂ ctx id)
  | (r₂, s₂) =>
    match pollExpired s₂ with
    | (some _, s₃) => some (.progress, s₃)
    | (none, s₃) =>
        if pendingStatusClosed && r₂.isClosed then some (.closed, s₃)
        else some (.pending, s₃)

/-- RequestDispatch::pump_write (channel.rs lines 229-277): try a new
request first (write_request on success, which can hit the duplicate-id
expect, modelled by none), otherwise fall through to cancellations,
deadline expirations and the closed-queues check. -/
def pumpWrite {Req Resp : Type} (s : Sys Req Resp) : Option (PumpResult × Sys Req Resp) :=
  match pollNextRequest s with
  | (.item d, s₁) => (writeRequest s₁ d).map (fun s₂ => (.progress, s₂))
  | (r₁, s₁) => pumpWriteRest s₁ r₁.isClosed

/-- Outcome of one iteration of the loop in the Future impl for
RequestDispatch: return Ready(Ok(())), loop again, or return Pending. -/
inductive IterOutcome where
  | done
  | again
  | sleep
deriving DecidableEq, Repr

/-- The match in the Future impl for RequestDispatch (channel.rs lines
408-440) on the results of pump_read and pump_write, given whether the
in-flight table is empty after both pumps ran. -/
def iterOutcome (r w : PumpResult) (inFlightEmpty : Bool) : IterOutcome :=
  match r, w with
  | .closed, _ => .done
  | _, .closed =>
      if inFlightEmpty then .done
      else match r with
           | .progress => .again
           | _ => .sleep
  | .progress, _ => .again
  | _, .progress => .again
  | _, _ => .sleep

/-- One iteration of the loop in the Future impl for RequestDispatch
(channel.rs lines 408-440): run pump_read then pump_write and combine
their results; none models the duplicate-id expect firing inside
write_request. -/
def pollIter {Req Resp : Type} (s : Sys Req Resp) : Option (IterOutcome × Sys Req Resp) :=
  let p := pumpRead s
  match pumpWrite p.2 with
  | none => none
  | some (w, s₂) => some (iterOutcome p.1 w s₂.in_flight_requests.isEmpty, s₂)

/-- The state produced by new (channel.rs lines 162-187): empty queues,
empty in-flight table, counter at 0. -/
def initSys {Req Resp : Type} (config : Config) : Sys Req Resp :=
  { config := config, next_request_id := 0, total_sends := 0, slots := [],
    pending_requests := [], pending_closed := false, canceled_requests := [],
    canceled_closed := false, in_flight_requests := [], sent := [], incoming := [],
    read_closed := false, now := 0 }

/-- The events of the client-side system: a send on (any clone of) the
channel, the drop of a response handle, one iteration of the dispatcher
poll loop, the arrival of a server response to a request that was actually
written to the transport, the passage of time, and the closing of the
channel ends by the environment. -/
inductive Step {Req Resp : Type} : Sys Req Resp → Sys Req Resp → Prop where
  | send (s : Sys Req Resp) (ctx : Context) (request : Req) (freshSpan : Nat)
      (s' : Sys Req Resp) (id : Nat) :
      s.pending_requests.length < s.config.pending_request_buffer →
      channelSend s ctx request freshSpan = .ok (s', id) → Step s s'
  | dropHandle (s : Sys Req Resp) (i : Nat) (sl : Slot Resp) :
      s.slots[i]? = some sl → sl.closed = false → Step s (dropDispatchResponse s i sl)
  | respond (s : Sys Req Resp) (r : Response Resp) (q : Request Req) :
      ClientMessage.request q ∈ s.sent → q.id = r.request_id →
      Step s { s with incoming := s.incoming ++ [r] }
  | pollStep (s : Sys Req Resp) (o : IterOutcome) (s' : Sys Req Resp) :
      pollIter s = some (o, s') → Step s s'
  | tick (s : Sys Req Resp) : Step s { s with now := s.now + 1 }
  | closePending (s : Sys Req Resp) : Step s { s with pending_closed := true }
  | closeCancel (s : Sys Req Resp) : Step s { s with canceled_closed := true }
  | closeRead (s : Sys Req Resp) : Step s { s with read_closed := true }

/-- Reachability of a system state from another by any number of steps. -/
def Reachable {Req Resp : Type} : Sys Req Resp → Sys Req Resp → Prop :=
  Relation.ReflTransGen Step

/-! ### Small helper lemmas about the slot arena and the in-flight table -/

lemma subperm_nodup {α : Type} {l₁ l₂ : List α} (h : List.Subperm l₁ l₂)
    (h₂ : l₂.Nodup) : l₁.Nodup := by
  obtain ⟨l, hp, hs⟩ := h
  exact hp.nodup (hs.nodup h₂)

lemma slotClosed_set {Resp : Type} (slots : List (Slot Resp)) (i j : Nat) (v : Slot Resp)
    (hv : ∀ sl, slots[i]? = some sl → v.closed = sl.closed) :
    slotClosed (slots.set i v) j = slotClosed slots j := by
  unfold slotClosed
  rw [List.getElem?_set]
  by_cases hij : i = j
  · subst hij
    by_cases hlen : i < slots.length
    · cases hsl : slots[i]? with
      | none =>
        rw [List.getElem?_eq_none_iff] at hsl
        omega
      | some sl => simp [hlen, hsl, hv sl hsl]
    · simp [hlen, List.getElem?_eq_none (Nat.le_of_not_lt hlen)]
  · simp [hij]

lemma slotClosed_dropSenderAt {Resp : Type} (slots : List (Slot Resp)) (i j : Nat) :
    slotClosed (dropSenderAt slots i) j = slotClosed slots j := by
  unfold dropSenderAt
  cases h : slots[i]? with
  | none => rfl
  | some sl => exact slotClosed_set slots i j _ (by intro sl' h'; rw [h'] at h; cases h; rfl)

lemma lookupEntry_isSome_iff (t : List (Nat × InFlightEntry)) (id : Nat) :
    (lookupEntry t id).isSome = true ↔ id ∈ t.map Prod.fst := by
  induction t with
  | nil => simp [lookupEntry]
  | cons p rest ih =>
    by_cases h : p.1 = id
    · simp [lookupEntry, h]
    · simp [lookupEntry, h, ih, Ne.symm h]

lemma removeEntry_sublist (t : List (Nat × InFlightEntry)) (id : Nat) :
    List.Sublist (removeEntry t id) t := by
  induction t with
  | nil => simp [removeEntry]
  | cons p rest ih =>
    by_cases h : p.1 = id
    · simp only [removeEntry, h, if_true]
      exact (List.sublist_cons_self p rest)
    · simp only [removeEntry, h, if_false]
      exact ih.cons₂ p

lemma removeEntry_length_le (t : List (Nat × InFlightEntry)) (id : Nat) :
    (removeEntry t id).length ≤ t.length :=
  (removeEntry_sublist t id).length_le

lemma findExpiredEntry_mem (now : Nat) (t : List (Nat × InFlightEntry)) (p : Nat × InFlightEntry)
    (h : findExpiredEntry now t = some p) : p ∈ t ∧ p.2.ctx.deadline ≤ now := by
  induction t with
  | nil => simp [findExpiredEntry] at h
  | cons q rest ih =>
    by_cases hq : q.2.ctx.deadline ≤ now
    · simp only [findExpiredEntry, hq, if_true, Option.some.injEq] at h
      subst h
      exact ⟨List.mem_cons_self q rest, hq⟩
    · simp only [findExpiredEntry, hq, if_false] at h
      obtain ⟨hm, hd⟩ := ih h
      exact ⟨List.mem_cons_of_mem q hm, hd⟩

lemma lookupEntry_eq_some_of_mem_nodup (t : List (Nat × InFlightEntry)) (p : Nat × InFlightEntry)
    (hmem : p ∈ t) : (lookupEntry t p.1).isSome = true := by
  rw [lookupEntry_isSome_iff]
  exact List.mem_map_of_mem Prod.fst hmem

/-! ### Behaviour of the dequeue loops -/

/-- Updater for the fields the dispatcher loop bodies can modify, keeping
the configuration, the counter, the ghost send count, the closed flags and
the clock fixed.  Used to phrase frame conditions compactly. -/
def updD {Req Resp : Type} (s : Sys Req Resp) (slots : List (Slot Resp))
    (pending : List (DispatchRequest Req)) (canceled : List Nat)
    (inflight : List (Nat × InFlightEntry)) (sentFrames : List (ClientMessage Req))
    (incoming : List (Response Resp)) : Sys Req Resp :=
  { s with slots := slots, pending_requests := pending, canceled_requests := canceled,
           in_flight_requests := inflight, sent := sentFrames, incoming := incoming }

lemma pollNextRequestGo_spec {Req Resp : Type} :
    ∀ (q : List (DispatchRequest Req)) (s : Sys Req Resp) (r : PollRecv (DispatchRequest Req))
      (s' : Sys Req Resp), pollNextRequestGo s q = (r, s') →
      ∃ sl pq, s' = updD s sl pq s.canceled_requests s.in_flight_requests s.sent s.incoming ∧
        ∃ skipped : List (DispatchRequest Req),
          (∀ d ∈ skipped, slotClosed s.slots d.response_completion = true) ∧
          ((∃ d, r = .item d ∧ slotClosed s.slots d.response_completion = false ∧
              q = skipped ++ d :: pq) ∨
           (r = (if s.pending_closed then .closed else .pending) ∧ q = skipped ∧ pq = [])) := by
  intro q
  induction q with
  | nil =>
    intro s r s' h
    simp only [pollNextRequestGo] at h
    cases h
    exact ⟨s.slots, [], rfl, [], by simp, Or.inr ⟨rfl, rfl, rfl⟩⟩
  | cons d rest ih =>
    intro s r s' h
    by_cases hcl : slotClosed s.slots d.response_completion = true
    · simp only [pollNextRequestGo, hcl, if_true] at h
      obtain ⟨sl, pq, hupd, skipped, hsk, hcases⟩ := ih _ r s' h
      have hslots : ∀ j, slotClosed (dropSenderAt s.slots d.response_completion) j
          = slotClosed s.slots j :=
        fun j => slotClosed_dropSenderAt s.slots d.response_completion j
      refine ⟨sl, pq, by rw [hupd]; rfl, d :: skipped, ?_, ?_⟩
      · intro d' hd'
        rcases List.mem_cons.1 hd' with h1 | h1
        · subst h1; exact hcl
        · have := hsk d' h1
          rwa [hslots] at this
      · rcases hcases with ⟨d', hr, hop, hq⟩ | ⟨hr, hq, hnil⟩
        · exact Or.inl ⟨d', hr, by rw [← hslots]; exact hop, by simp [hq]⟩
        · exact Or.inr ⟨hr, by simp [hq], hnil⟩
    · replace hcl : slotClosed s.slots d.response_completion = false := by
        simpa using hcl
      simp only [pollNextRequestGo, hcl, Bool.false_eq_true, if_false] at h
      cases h
      exact ⟨s.slots, rest, rfl, [], by simp, Or.inl ⟨d, rfl, hcl, by simp⟩⟩

lemma pollNextRequest_spec {Req Resp : Type} (s : Sys Req Resp)
    (r : PollRecv (DispatchRequest Req)) (s' : Sys Req Resp)
    (h : pollNextRequest s = (r, s')) :
    (s.in_flight_requests.length ≥ s.config.max_in_flight_requests ∧ r = .pending ∧ s' = s)
    ∨ (s.in_flight_requests.length < s.config.max_in_flight_requests ∧
       ∃ sl pq, s' = updD s sl pq s.canceled_requests s.in_flight_requests s.sent s.incoming ∧
       ∃ skipped : List (DispatchRequest Req),
         (∀ d ∈ skipped, slotClosed s.slots d.response_completion = true) ∧
         ((∃ d, r = .item d ∧ slotClosed s.slots d.response_completion = false ∧
             s.pending_requests = skipped ++ d :: pq) ∨
          (r = (if s.pending_closed then .closed else .pending) ∧
             s.pending_requests = skipped ∧ pq = []))) := by
  by_cases hcap : s.in_flight_requests.length ≥ s.config.max_in_flight_requests
  · simp only [pollNextRequest, hcap, if_true] at h
    cases h
    exact Or.inl ⟨hcap, rfl, rfl⟩
  · simp only [pollNextRequest, hcap, if_false] at h
    exact Or.inr ⟨Nat.lt_of_not_le hcap, pollNextRequestGo_spec s.pending_requests s r s' h⟩

lemma pollNextCancellationGo_spec {Req Resp : Type} :
    ∀ (q : List Nat) (s : Sys Req Resp) (r : PollRecv (Context × Nat)) (s' : Sys Req Resp),
      pollNextCancellationGo s q = (r, s') →
      ∃ sl cq ifl, s' = updD s sl s.pending_requests cq ifl s.sent s.incoming ∧
        ∃ dropped : List Nat, (∀ i ∈ dropped, lookupEntry s.in_flight_requests i = none) ∧
          ((∃ id e, r = .item (e.ctx, id) ∧ lookupEntry s.in_flight_requests id = some e ∧
              ifl = removeEntry s.in_flight_requests id ∧ sl = dropSenderAt s.slots e.slot ∧
              q = dropped ++ id :: cq) ∨
           (r = (if s.canceled_closed then .closed else .pending) ∧ sl = s.slots ∧
              ifl = s.in_flight_requests ∧ q = dropped ∧ cq = [])) := by
  intro q
  induction q with
  | nil =>
    intro s r s' h
    simp only [pollNextCancellationGo] at h
    cases h
    exact ⟨s.slots, [], s.in_flight_requests, rfl, [], by simp,
      Or.inr ⟨rfl, rfl, rfl, rfl, rfl⟩⟩
  | cons id rest ih =>
    intro s r s' h
    cases he : lookupEntry s.in_flight_requests id with
    | some e =>
      simp only [pollNextCancellationGo, he] at h
      cases h
      exact ⟨dropSenderAt s.slots e.slot, rest, removeEntry s.in_flight_requests id, rfl,
        [], by simp, Or.inl ⟨id, e, rfl, he, rfl, rfl, by simp⟩⟩
    | none =>
      simp only [pollNextCancellationGo, he] at h
      obtain ⟨sl, cq, ifl, hupd, dropped, hdrop, hcases⟩ := ih s r s' h
      refine ⟨sl, cq, ifl, hupd, id :: dropped, ?_, ?_⟩
      · intro i hi
        rcases List.mem_cons.1 hi with h1 | h1
        · subst h1; exact he
        · exact hdrop i h1
      · rcases hcases with ⟨id', e, hr, hlk, hifl, hsl, hq⟩ | ⟨hr, hsl, hifl, hq, hcq⟩
        · exact Or.inl ⟨id', e, hr, hlk, hifl, hsl, by simp [hq]⟩
        · exact Or.inr ⟨hr, hsl, hifl, by simp [hq], hcq⟩

lemma insertRequest_eq (t : List (Nat × InFlightEntry)) (id : Nat) (ctx : Context)
    (slot : Nat) (t' : List (Nat × InFlightEntry)) (h : insertRequest t id ctx slot = some t') :
    t' = t ++ [(id, { ctx := ctx, slot := slot })] ∧ (lookupEntry t id).isSome = false := by
  unfold insertRequest at h
  by_cases hl : (lookupEntry t id).isSome = true
  · simp [hl] at h
  · replace hl : (lookupEntry t id).isSome = false := by simpa using hl
    simp only [hl, Bool.false_eq_true, if_false, Option.some.injEq] at h
    exact ⟨h.symm, hl⟩

lemma pollExpired_spec {Req Resp : Type} (s : Sys Req Resp) (eo : Option (Nat × Context))
    (s' : Sys Req Resp) (h : pollExpired s = (eo, s')) :
    (eo = none ∧ s' = s ∧ findExpiredEntry s.now s.in_flight_requests = none)
    ∨ (∃ p, findExpiredEntry s.now s.in_flight_requests = some p ∧ eo = some (p.1, p.2.ctx) ∧
        s' = updD s (dropSenderAt s.slots p.2.slot) s.pending_requests s.canceled_requests
               (removeEntry s.in_flight_requests p.1) s.sent s.incoming) := by
  unfold pollExpired at h
  cases hf : findExpiredEntry s.now s.in_flight_requests with
  | none =>
    rw [hf] at h
    injection h with h1 h2
    subst h1
    subst h2
    exact Or.inl ⟨rfl, rfl, rfl⟩
  | some p =>
    rw [hf] at h
    injection h with h1 h2
    subst h1
    subst h2
    exact Or.inr ⟨p, rfl, rfl, rfl⟩

lemma pumpWriteRest_frames {Req Resp : Type} (s₁ : Sys Req Resp) (b : Bool) (w : PumpResult)
    (s'' : Sys Req Resp) (hw : pumpWriteRest s₁ b = some (w, s'')) :
    (s''.sent = s₁.sent ∨ ∃ (ctx : Context) (id : Nat),
        s''.sent = s₁.sent ++ [ClientMessage.cancel ctx.trace_context id])
    ∧ (∀ p ∈ s''.in_flight_requests, p ∈ s₁.in_flight_requests) := by
  rcases hc : pollNextCancellation s₁ with ⟨rc, s₂⟩
  obtain ⟨sl, cq, ifl, hupd, dropped, hdrop, hcases⟩ :=
    pollNextCancellationGo_spec s₁.canceled_requests s₁ rc s₂ hc
  have hsent₂ : s₂.sent = s₁.sent := by rw [hupd]; rfl
  have hifl₂ : ∀ p ∈ s₂.in_flight_requests, p ∈ s₁.in_flight_requests := by
    intro p hp
    rcases hcases with ⟨id, e, hr, hlk, hifl, hsl, hq⟩ | ⟨hr, hsl, hifl, hq, hcq⟩
    · rw [hupd] at hp
      simp only [updD] at hp
      rw [hifl] at hp
      exact (removeEntry_sublist s₁.in_flight_requests id).subset hp
    · rw [hupd] at hp
      simp only [updD] at hp
      rw [hifl] at hp
      exact hp
  have hexp : ∀ (eo : Option (Nat × Context)) (s₃ : Sys Req Resp),
      pollExpired s₂ = (eo, s₃) →
      s₃.sent = s₁.sent ∧ ∀ p ∈ s₃.in_flight_requests, p ∈ s₁.in_flight_requests := by
    intro eo s₃ he
    rcases pollExpired_spec s₂ eo s₃ he with ⟨_, h3, _⟩ | ⟨p, _, _, h3⟩
    · subst h3
      exact ⟨hsent₂, hifl₂⟩
    · constructor
      · rw [h3]
        simpa only [updD] using hsent₂
      · intro q hq
        rw [h3] at hq
        simp only [updD] at hq
        exact hifl₂ q ((removeEntry_sublist s₂.in_flight_requests p.1).subset hq)
  cases rc with
  | item pr =>
    rcases pr with ⟨ctx, id⟩
    have hpw : pumpWriteRest s₁ b = some (.progress, writeCancel s₂ ctx id) := by
      unfold pumpWriteRest
      rw [hc]
    rw [hpw] at hw
    injection hw with hw
    injection hw with hw1 hw2
    subst hw2
    constructor
    · exact Or.inr ⟨ctx, id, by simp [writeCancel, hsent₂]⟩
    · intro p hp
      simp only [writeCancel] at hp
      exact hifl₂ p hp
  | pending =>
    rcases he : pollExpired s₂ with ⟨eo, s₃⟩
    obtain ⟨hs₃, hf₃⟩ := hexp eo s₃ he
    cases eo with
    | some p =>
      have hpw : pumpWriteRest s₁ b = some (.progress, s₃) := by
        unfold pumpWriteRest
        rw [hc]
        dsimp only
        rw [he]
      rw [hpw] at hw
      injection hw with hw
      injection hw with hw1 hw2
      subst hw2
      exact ⟨Or.inl hs₃, hf₃⟩
    | none =>
      have hpw : pumpWriteRest s₁ b =
          (if b && PollRecv.isClosed (.pending : PollRecv (Context × Nat)) then
            some (.closed, s₃) else some (.pending, s₃)) := by
        unfold pumpWriteRest
        rw [hc]
        dsimp only
        rw [he]
      rw [hpw] at hw
      split at hw <;>
        · injection hw with hw
          injection hw with hw1 hw2
          subst hw2
          exact ⟨Or.inl hs₃, hf₃⟩
  | closed =>
    rcases he : pollExpired s₂ with ⟨eo, s₃⟩
    obtain ⟨hs₃, hf₃⟩ := hexp eo s₃ he
    cases eo with
    | some p =>
      have hpw : pumpWriteRest s₁ b = some (.progress, s₃) := by
        unfold pumpWriteRest
        rw [hc]
        dsimp only
        rw [he]
      rw [hpw] at hw
      injection hw with hw
      injection hw with hw1 hw2
      subst hw2
      exact ⟨Or.inl hs₃, hf₃⟩
    | none =>
      have hpw : pumpWriteRest s₁ b =
          (if b && PollRecv.isClosed (.closed : PollRecv (Context × Nat)) then
            some (.closed, s₃) else some (.pending, s₃)) := by
        unfold pumpWriteRest
        rw [hc]
        dsimp only
        rw [he]
      rw [hpw] at hw
      split at hw <;>
        · injection hw with hw
          injection hw with hw1 hw2
          subst hw2
          exact ⟨Or.inl hs₃, hf₃⟩

lemma pumpWrite_frames {Req Resp : Type} (s : Sys Req Resp) (w : PumpResult)
    (s'' : Sys Req Resp) (hw : pumpWrite s = some (w, s'')) :
    (s''.sent = s.sent
     ∨ (∃ d s₁, pollNextRequest s = (.item d, s₁) ∧
          slotClosed s.slots d.response_completion = false ∧
          s''.sent = s.sent ++ [requestFrame d])
     ∨ (∃ (ctx : Context) (id : Nat), s''.sent = s.sent ++ [ClientMessage.cancel ctx.trace_context id]))
    ∧ (∀ p ∈ s''.in_flight_requests, p ∈ s.in_flight_requests
        ∨ ∃ d s₁, pollNextRequest s = (.item d, s₁) ∧
            slotClosed s.slots d.response_completion = false ∧
            p = (d.request_id, { ctx := d.ctx, slot := d.response_completion })) := by
  rcases h : pollNextRequest s with ⟨r, s₁⟩
  have hspec := pollNextRequest_spec s r s₁ h
  have hsent₁ : s₁.sent = s.sent := by
    rcases hspec with ⟨_, _, h1⟩ | ⟨_, sl, pq, h1, _⟩ <;> (rw [h1]; try rfl)
  have hifl₁ : s₁.in_flight_requests = s.in_flight_requests := by
    rcases hspec with ⟨_, _, h1⟩ | ⟨_, sl, pq, h1, _⟩ <;> (rw [h1]; try rfl)
  have hitem : ∀ d, r = .item d → slotClosed s.slots d.response_completion = false := by
    intro d hd
    rcases hspec with ⟨_, h1, _⟩ | ⟨_, sl, pq, h1, skipped, hsk, hcases⟩
    · rw [hd] at h1; cases h1
    · rcases hcases with ⟨d', hr, hop, hq⟩ | ⟨hr, hq, hnil⟩
      · rw [hd] at hr
        cases hr
        exact hop
      · rw [hd] at hr
        split at hr <;> cases hr
  cases r with
  | item d =>
    have hpw : pumpWrite s = (writeRequest s₁ d).map (fun s₂ => (PumpResult.progress, s₂)) := by
      unfold pumpWrite
      rw [h]
    rw [hpw, Option.map_eq_some'] at hw
    obtain ⟨s₂, hwr, hws⟩ := hw
    injection hws with hws1 hws2
    subst hws2
    unfold writeRequest at hwr
    rcases hi : insertRequest s₁.in_flight_requests d.request_id d.ctx d.response_completion
      with _ | t
    · rw [hi] at hwr
      cases hwr
    · rw [hi] at hwr
      injection hwr with hwr
      obtain ⟨ht, _⟩ := insertRequest_eq _ _ _ _ _ hi
      constructor
      · refine Or.inr (Or.inl ⟨d, s₁, rfl, hitem d rfl, ?_⟩)
        rw [← hwr]
        simp [hsent₁]
      · intro p hp
        rw [← hwr] at hp
        simp only at hp
        rw [ht] at hp
        rcases List.mem_append.1 hp with h1 | h1
        · left; rwa [hifl₁] at h1
        · right
          exact ⟨d, s₁, rfl, hitem d rfl, by simpa using h1⟩
  | pending =>
    have hpw : pumpWrite s = pumpWriteRest s₁ (PollRecv.isClosed (.pending : PollRecv (DispatchRequest Req))) := by
      unfold pumpWrite
      rw [h]
    rw [hpw] at hw
    obtain ⟨hs, hf⟩ := pumpWriteRest_frames s₁ _ w s'' hw
    constructor
    · rcases hs with h1 | ⟨ctx, id, h1⟩
      · exact Or.inl (by rw [h1, hsent₁])
      · exact Or.inr (Or.inr ⟨ctx, id, by rw [h1, hsent₁]⟩)
    · intro p hp
      left
      rw [← hifl₁]
      exact hf p hp
  | closed =>
    have hpw : pumpWrite s = pumpWriteRest s₁ (PollRecv.isClosed (.closed : PollRecv (DispatchRequest Req))) := by
      unfold pumpWrite
      rw [h]
    rw [hpw] at hw
    obtain ⟨hs, hf⟩ := pumpWriteRest_frames s₁ _ w s'' hw
    constructor
    · rcases hs with h1 | ⟨ctx, id, h1⟩
      · exact Or.inl (by rw [h1, hsent₁])
      · exact Or.inr (Or.inr ⟨ctx, id, by rw [h1, hsent₁]⟩)
    · intro p hp
      left
      rw [← hifl₁]
      exact hf p hp

/-! ### Claim C1 -/

/-- C1: for every request dequeued from the pending queue whose response
slot is already closed, poll_next_request skips it and loops to the next;
the dequeue loop writes nothing and creates no in-flight entry, a yielded
request always has a live slot, and across the whole pump_write pass any
Request frame written and any in-flight entry created stems from a
dequeued request whose slot was not closed — so no entry and no Request
frame is ever produced for a skipped request. -/
theorem c1_closed_slot_requests_skipped {Req Resp : Type} (s : Sys Req Resp)
    (r : PollRecv (DispatchRequest Req)) (s₁ : Sys Req Resp)
    (h : pollNextRequest s = (r, s₁)) (w : PumpResult) (s'' : Sys Req Resp)
    (hw : pumpWrite s = some (w, s'')) :
    s₁.sent = s.sent ∧ s₁.in_flight_requests = s.in_flight_requests
    ∧ (∀ d, r = .item d → slotClosed s.slots d.response_completion = false)
    ∧ (∃ skipped : List (DispatchRequest Req),
        (∀ d ∈ skipped, slotClosed s.slots d.response_completion = true) ∧
        ((∃ d, r = .item d ∧ s.pending_requests = skipped ++ d :: s₁.pending_requests)
         ∨ s.pending_requests = skipped ++ s₁.pending_requests))
    ∧ (s''.sent = s.sent
       ∨ (∃ d s₁', pollNextRequest s = (.item d, s₁') ∧
            slotClosed s.slots d.response_completion = false ∧
            s''.sent = s.sent ++ [requestFrame d])
       ∨ (∃ (ctx : Context) (id : Nat),
            s''.sent = s.sent ++ [ClientMessage.cancel ctx.trace_context id]))
    ∧ (∀ p ∈ s''.in_flight_requests, p ∈ s.in_flight_requests
       ∨ ∃ d s₁', pollNextRequest s = (.item d, s₁') ∧
           slotClosed s.slots d.response_completion = false ∧
           p = (d.request_id, { ctx := d.ctx, slot := d.response_completion })) := by
  have hspec := pollNextRequest_spec s r s₁ h
  have hsent₁ : s₁.sent = s.sent := by
    rcases hspec with ⟨_, _, h1⟩ | ⟨_, sl, pq, h1, _⟩ <;> (rw [h1]; try rfl)
  have hifl₁ : s₁.in_flight_requests = s.in_flight_requests := by
    rcases hspec with ⟨_, _, h1⟩ | ⟨_, sl, pq, h1, _⟩ <;> (rw [h1]; try rfl)
  have hitem : ∀ d, r = .item d → slotClosed s.slots d.response_completion = false := by
    intro d hd
    rcases hspec with ⟨_, h1, _⟩ | ⟨_, sl, pq, h1, skipped, hsk, hcases⟩
    · rw [hd] at h1; cases h1
    · rcases hcases with ⟨d', hr, hop, hq⟩ | ⟨hr, hq, hnil⟩
      · rw [hd] at hr
        cases hr
        exact hop
      · rw [hd] at hr
        split at hr <;> cases hr
  have hframes := pumpWrite_frames s w s'' hw
  refine ⟨hsent₁, hifl₁, hitem, ?_, hframes.1, hframes.2⟩
  rcases hspec with ⟨_, _, h1⟩ | ⟨_, sl, pq, h1, skipped, hsk, hcases⟩
  · subst h1
    exact ⟨[], by simp, Or.inr rfl⟩
  · have hpq : s₁.pending_requests = pq := by rw [h1]; rfl
    rcases hcases with ⟨d', hr, hop, hq⟩ | ⟨hr, hq, hnil⟩
    · exact ⟨skipped, hsk, Or.inl ⟨d', hr, by rw [hpq]; exact hq⟩⟩
    · exact ⟨skipped, hsk, Or.inr (by rw [hpq, hnil, List.append_nil]; exact hq)⟩

/-- Configuration used by the concrete witness states. -/
def wCfg : Config := { max_in_flight_requests := 1, pending_request_buffer := 1 }

/-- Call context used by the concrete witness states. -/
def wCtx : Context :=
  { deadline := 5, trace_context := { trace_id := 7, span_id := 3, parent_id := none } }

/-- Concrete dispatcher state holding exactly one staged request whose
response slot is already closed. -/
def c1WitnessState : Sys Unit Unit :=
  { config := wCfg,
    next_request_id := 1, total_sends := 1,
    slots := [{ recv := none, closed := true, senderGone := false, complete := false,
                request_id := 0 }],
    pending_requests := [{ ctx := wCtx, request_id := 0, request := (),
                           response_completion := 0 }],
    pending_closed := false, canceled_requests := [], canceled_closed := false,
    in_flight_requests := [], sent := [], incoming := [], read_closed := false, now := 0 }

/-- The state c1WitnessState steps to: the closed-slot request is dropped. -/
def c1WitnessOut : Sys Unit Unit :=
  { c1WitnessState with
    slots := [{ recv := none, closed := true, senderGone := true, complete := false,
                request_id := 0 }],
    pending_requests := [] }

theorem c1_closed_slot_requests_skipped_witness :
    pollNextRequest c1WitnessState = (.pending, c1WitnessOut)
    ∧ pumpWrite c1WitnessState = some (.pending, c1WitnessOut)
    ∧ c1WitnessOut.sent = c1WitnessState.sent
    ∧ c1WitnessOut.in_flight_requests = c1WitnessState.in_flight_requests
    ∧ (c1WitnessOut.sent = c1WitnessState.sent
       ∨ (∃ d s₁', pollNextRequest c1WitnessState = (.item d, s₁') ∧
            slotClosed c1WitnessState.slots d.response_completion = false ∧
            c1WitnessOut.sent = c1WitnessState.sent ++ [requestFrame d])
       ∨ (∃ (ctx : Context) (id : Nat),
            c1WitnessOut.sent = c1WitnessState.sent ++
              [ClientMessage.cancel ctx.trace_context id])) := by
  have h : pollNextRequest c1WitnessState = (.pending, c1WitnessOut) := by decide
  have hw : pumpWrite c1WitnessState = some (.pending, c1WitnessOut) := by decide
  obtain ⟨h1, h2, _, _, h5, _⟩ :=
    c1_closed_slot_requests_skipped c1WitnessState _ _ h _ _ hw
  exact ⟨h, hw, h1, h2, h5⟩

/-! ### Claim C2 -/

/-- C2: dropping a DispatchResponse before it resolved (complete = false)
performs exactly two effects in order: first close the response receiver,
then enqueue the request id on the cancel queue; at the moment the cancel
id is enqueued (that is, in the state reached after the first effect) the
response slot is already closed, and it stays closed in the final state
with the id appended to the cancel queue. -/
theorem c2_close_slot_before_enqueue_cancel {Req Resp : Type} (s : Sys Req Resp)
    (complete : Bool) (i request_id : Nat) (hc : complete = false)
    (hi : i < s.slots.length) :
    dispatchResponseDropEffects complete i request_id
      = [.closeReceiver i, .sendCancel request_id]
    ∧ slotClosed (applyDropEffect s (.closeReceiver i)).slots i = true
    ∧ (applyDropEffect s (.closeReceiver i)).canceled_requests = s.canceled_requests
    ∧ (applyDropEffect (applyDropEffect s (.closeReceiver i))
         (.sendCancel request_id)).canceled_requests = s.canceled_requests ++ [request_id]
    ∧ slotClosed (applyDropEffect (applyDropEffect s (.closeReceiver i))
         (.sendCancel request_id)).slots i = true := by
  subst hc
  have hclosed : slotClosed (closeReceiverAt s.slots i) i = true := by
    unfold closeReceiverAt slotClosed
    cases hsl : s.slots[i]? with
    | none =>
      rw [List.getElem?_eq_none_iff] at hsl
      omega
    | some sl =>
      rw [List.getElem?_set]
      simp [hi]
  refine ⟨rfl, ?_, rfl, rfl, ?_⟩
  · simpa [applyDropEffect] using hclosed
  · simpa [applyDropEffect] using hclosed

/-- Concrete state for the C2 witness: a single open slot. -/
def c2WitnessState : Sys Unit Unit :=
  { config := wCfg,
    next_request_id := 1, total_sends := 1,
    slots := [{ recv := none, closed := false, senderGone := false, complete := false,
                request_id := 0 }],
    pending_requests := [], pending_closed := false, canceled_requests := [],
    canceled_closed := false, in_flight_requests := [], sent := [], incoming := [],
    read_closed := false, now := 0 }

theorem c2_close_slot_before_enqueue_cancel_witness :
    dispatchResponseDropEffects false 0 0 = [.closeReceiver 0, .sendCancel 0]
    ∧ slotClosed (applyDropEffect c2WitnessState (.closeReceiver 0)).slots 0 = true
    ∧ (applyDropEffect (applyDropEffect c2WitnessState (.closeReceiver 0))
         (.sendCancel 0)).canceled_requests = c2WitnessState.canceled_requests ++ [0] := by
  obtain ⟨h1, h2, _, h4, _⟩ :=
    c2_close_slot_before_enqueue_cancel c2WitnessState false 0 0 rfl (by decide)
  exact ⟨h1, h2, h4⟩

/-! ### Claim C7 -/

/-- C7: on every successful Channel::send the staged request's context has
parent_id set to the caller's span_id, span_id replaced by the freshly
generated value, while trace_id and the deadline are carried through
unchanged; and write_request copies exactly that context into the Request
frame. -/
theorem c7_trace_context_rewrite {Req Resp : Type} (s : Sys Req Resp) (ctx : Context)
    (request : Req) (freshSpan : Nat) (hopen : s.pending_closed = false) :
    ∃ s' d, channelSend s ctx request freshSpan = .ok (s', d.request_id)
      ∧ s'.pending_requests = s.pending_requests ++ [d]
      ∧ d.ctx.trace_context.parent_id = some ctx.trace_context.span_id
      ∧ d.ctx.trace_context.span_id = freshSpan
      ∧ d.ctx.trace_context.trace_id = ctx.trace_context.trace_id
      ∧ d.ctx.deadline = ctx.deadline
      ∧ requestFrame d = .request { id := d.request_id, message := d.request,
                                    context := d.ctx } := by
  unfold channelSend
  rw [hopen]
  dsimp only
  exact ⟨_, { ctx := { ctx with trace_context := { ctx.trace_context with
                parent_id := some ctx.trace_context.span_id, span_id := freshSpan } },
              request_id := (fetchAddNextId s.next_request_id).1, request := request,
              response_completion := s.slots.length }, rfl, rfl, rfl, rfl, rfl, rfl, rfl⟩

theorem c7_trace_context_rewrite_witness :
    ∃ s' d, channelSend (initSys wCfg : Sys Unit Unit) wCtx () 11
        = .ok (s', d.request_id)
      ∧ s'.pending_requests = [] ++ [d]
      ∧ d.ctx.trace_context.parent_id = some 3
      ∧ d.ctx.trace_context.span_id = 11
      ∧ d.ctx.trace_context.trace_id = 7
      ∧ d.ctx.deadline = 5 := by
  obtain ⟨s', d, h1, h2, h3, h4, h5, h6, _⟩ :=
    c7_trace_context_rewrite (initSys wCfg : Sys Unit Unit) wCtx () 11 rfl
  exact ⟨s', d, h1, h2, h3, h4, h5, h6⟩

/-! ### Claim C10 -/

/-- C10: the Disconnected failure (staging onto a closed pending queue)
and the ResponseLost failure (response slot closed without a value after
the sender is gone) both surface to the caller as an io::Error of kind
ConnectionReset, hence are indistinguishable by error kind. -/
theorem c10_disconnected_and_response_lost_same_kind {Req Resp : Type}
    (s : Sys Req Resp) (ctx : Context) (request : Req) (freshSpan : Nat)
    (sl : Slot Resp) (hclosed : s.pending_closed = true)
    (hnone : sl.recv = none) (hgone : sl.senderGone = true) :
    channelSend s ctx request freshSpan = .error IoErrorKind.connectionReset
    ∧ dispatchResponsePoll sl = some (.error IoErrorKind.connectionReset) := by
  constructor
  · unfold channelSend
    rw [hclosed]
    rfl
  · unfold dispatchResponsePoll
    rw [hnone, hgone]
    rfl

/-- A slot whose sender is gone and that holds no value: the ResponseLost
situation. -/
def c10WitnessSlot : Slot Unit :=
  { recv := none, closed := true, senderGone := true, complete := false, request_id := 4 }

theorem c10_disconnected_and_response_lost_same_kind_witness :
    channelSend { (initSys wCfg : Sys Unit Unit) with pending_closed := true } wCtx () 0
      = .error IoErrorKind.connectionReset
    ∧ dispatchResponsePoll c10WitnessSlot = some (.error IoErrorKind.connectionReset) :=
  c10_disconnected_and_response_lost_same_kind _ wCtx () 0 c10WitnessSlot rfl rfl rfl

/-! ### Claim C8 -/

lemma one_lt_USIZE_MOD : 1 < USIZE_MOD := by
  unfold USIZE_MOD
  norm_num

lemma nthCounter_eq (k : Nat) : nthCounter k = k % USIZE_MOD := by
  induction k with
  | zero => simp [nthCounter]
  | succ k ih =>
    show (fetchAddNextId (nthCounter k)).2 = (k + 1) % USIZE_MOD
    rw [ih]
    unfold fetchAddNextId
    conv_rhs => rw [Nat.add_mod]
    rw [Nat.mod_eq_of_lt one_lt_USIZE_MOD]

lemma nthRequestId_eq (k : Nat) : nthRequestId k = k % USIZE_MOD := by
  unfold nthRequestId fetchAddNextId
  exact nthCounter_eq k

/-- C8 counterexample: the request-id counter is a usize fetch-add that
wraps modulo 2 ^ 64, so the send with index 2 ^ 64 is issued the same id
(namely 0) as the very first send on the channel, and the pair of
successive sends 2 ^ 64 - 1, 2 ^ 64 receives ids that are not strictly
increasing.  This refutes the claim that successive sends always receive
strictly increasing ids and that no id is issued twice within the
channel's lifetime. -/
theorem c8_counterexample_id_wrap :
    nthRequestId USIZE_MOD = nthRequestId 0
    ∧ USIZE_MOD ≠ 0
    ∧ ¬ nthRequestId (USIZE_MOD - 1) < nthRequestId USIZE_MOD := by
  have h0 : nthRequestId 0 = 0 := by rw [nthRequestId_eq]; simp
  have hM : nthRequestId USIZE_MOD = 0 := by rw [nthRequestId_eq]; simp
  have hM1 : nthRequestId (USIZE_MOD - 1) = USIZE_MOD - 1 := by
    rw [nthRequestId_eq]
    have h1M := one_lt_USIZE_MOD
    exact Nat.mod_eq_of_lt (by omega)
  refine ⟨by rw [h0, hM], by unfold USIZE_MOD; norm_num, ?_⟩
  rw [hM1, hM]
  omega

/-- C8 amended: request ids are allocated by fetch-and-increment on the
shared counter starting at 0 (channelSend allocates exactly
fetchAddNextId of the stored counter), and among the first 2 ^ 64 sends
of a channel's lifetime the ids are strictly increasing, so no id is
issued twice within that range; beyond 2 ^ 64 sends the usize counter
wraps. -/
theorem c8_monotonic_ids_amended {Req Resp : Type} :
    (∀ (s : Sys Req Resp) (ctx : Context) (request : Req) (freshSpan : Nat)
       (s' : Sys Req Resp) (id : Nat),
       channelSend s ctx request freshSpan = .ok (s', id) →
       id = (fetchAddNextId s.next_request_id).1
       ∧ s'.next_request_id = (fetchAddNextId s.next_request_id).2)
    ∧ nthRequestId 0 = 0
    ∧ (∀ i j, i < j → j < USIZE_MOD → nthRequestId i < nthRequestId j) := by
  refine ⟨?_, by rw [nthRequestId_eq]; simp, ?_⟩
  · intro s ctx request freshSpan s' id h
    unfold channelSend at h
    by_cases hp : s.pending_closed
    · rw [hp] at h
      simp at h
    · rw [eq_false_of_ne_true hp] at h
      injection h with h
      injection h with hA hB
      subst hA
      subst hB
      exact ⟨rfl, rfl⟩
  · intro i j hij hj
    rw [nthRequestId_eq, nthRequestId_eq, Nat.mod_eq_of_lt (by omega),
      Nat.mod_eq_of_lt hj]
    exact hij

theorem c8_monotonic_ids_amended_witness :
    (0 : Nat) < 1 ∧ 1 < USIZE_MOD ∧ nthRequestId 0 < nthRequestId 1 :=
  ⟨by norm_num, one_lt_USIZE_MOD,
   (@c8_monotonic_ids_amended Unit Unit).2.2 0 1 (by norm_num)
     one_lt_USIZE_MOD⟩

/-! ### Claim C5 -/

/-- C5: for every request id received from the cancel queue the dispatcher
removes the id from the in-flight table; an id with an entry is yielded
together with its context (and write_cancel then emits exactly one Cancel
frame for it), while ids without an entry are dropped silently: the drain
writes no frame and, when it ends without yielding, the only state change
is the consumed cancel queue. -/
theorem c5_cancel_queue_drain {Req Resp : Type} (s : Sys Req Resp)
    (rc : PollRecv (Context × Nat)) (s₂ : Sys Req Resp)
    (h : pollNextCancellation s = (rc, s₂)) :
    s₂.sent = s.sent ∧ s₂.pending_requests = s.pending_requests ∧ s₂.incoming = s.incoming
    ∧ (∃ dropped : List Nat, (∀ i ∈ dropped, lookupEntry s.in_flight_requests i = none) ∧
       ((∃ id e, rc = .item (e.ctx, id) ∧ lookupEntry s.in_flight_requests id = some e ∧
          s₂.in_flight_requests = removeEntry s.in_flight_requests id ∧
          s.canceled_requests = dropped ++ id :: s₂.canceled_requests)
        ∨ ((rc = .pending ∨ rc = .closed) ∧ s₂.in_flight_requests = s.in_flight_requests ∧
           s₂.slots = s.slots ∧ s.canceled_requests = dropped ++ s₂.canceled_requests)))
    ∧ (∀ (ctx : Context) (id : Nat), rc = .item (ctx, id) →
        (writeCancel s₂ ctx id).sent = s.sent ++ [ClientMessage.cancel ctx.trace_context id]
        ∧ (writeCancel s₂ ctx id).in_flight_requests = s₂.in_flight_requests) := by
  obtain ⟨sl, cq, ifl, hupd, dropped, hdrop, hcases⟩ :=
    pollNextCancellationGo_spec s.canceled_requests s rc s₂ h
  have hsent : s₂.sent = s.sent := by rw [hupd]; rfl
  have hpend : s₂.pending_requests = s.pending_requests := by rw [hupd]; rfl
  have hinc : s₂.incoming = s.incoming := by rw [hupd]; rfl
  have hcq : s₂.canceled_requests = cq := by rw [hupd]; rfl
  refine ⟨hsent, hpend, hinc, ⟨dropped, hdrop, ?_⟩, ?_⟩
  · rcases hcases with ⟨id, e, hr, hlk, hifl, hsl, hq⟩ | ⟨hr, hsl, hifl, hq, hcqnil⟩
    · refine Or.inl ⟨id, e, hr, hlk, ?_, by rw [hcq]; exact hq⟩
      rw [hupd, hifl]
      rfl
    · refine Or.inr ⟨?_, by rw [hupd, hifl]; rfl, by rw [hupd, hsl]; rfl,
        by rw [hcq, hcqnil, List.append_nil]; exact hq⟩
      rw [hr]
      split
      · exact Or.inr rfl
      · exact Or.inl rfl
  · intro ctx id hrc
    exact ⟨by simp [writeCancel, hsent], rfl⟩

/-- Concrete dispatcher state for the C5 witness: the cancel queue holds
an id with no entry (9) followed by an id with an entry (5). -/
def c5WitnessState : Sys Unit Unit :=
  { config := wCfg,
    next_request_id := 6, total_sends := 6,
    slots := [{ recv := none, closed := true, senderGone := false, complete := false,
                request_id := 5 }],
    pending_requests := [], pending_closed := false, canceled_requests := [9, 5],
    canceled_closed := false,
    in_flight_requests := [(5, { ctx := wCtx, slot := 0 })],
    sent := [], incoming := [], read_closed := false, now := 0 }

/-- The state after the drain: 9 was dropped silently, the entry for 5 was
removed and its sender marked gone. -/
def c5WitnessOut : Sys Unit Unit :=
  { c5WitnessState with
    canceled_requests := [],
    in_flight_requests := [],
    slots := [{ recv := none, closed := true, senderGone := true, complete := false,
                request_id := 5 }] }

theorem c5_cancel_queue_drain_witness :
    pollNextCancellation c5WitnessState = (.item (wCtx, 5), c5WitnessOut)
    ∧ c5WitnessOut.sent = c5WitnessState.sent
    ∧ (∀ (ctx : Context) (id : Nat), PollRecv.item (wCtx, 5) = .item (ctx, id) →
        (writeCancel c5WitnessOut ctx id).sent = c5WitnessState.sent ++
          [ClientMessage.cancel ctx.trace_context id]
        ∧ (writeCancel c5WitnessOut ctx id).in_flight_requests
          = c5WitnessOut.in_flight_requests) := by
  have h : pollNextCancellation c5WitnessState = (.item (wCtx, 5), c5WitnessOut) := by decide
  obtain ⟨h1, _, _, _, h5⟩ := c5_cancel_queue_drain c5WitnessState _ _ h
  exact ⟨h, h1, h5⟩

/-! ### Claim C6 -/

lemma pumpWrite_eq_rest {Req Resp : Type} (s : Sys Req Resp)
    (r₁ : PollRecv (DispatchRequest Req)) (s₁ : Sys Req Resp)
    (h1 : pollNextRequest s = (r₁, s₁)) (hr1 : r₁ = .pending ∨ r₁ = .closed) :
    pumpWrite s = pumpWriteRest s₁ r₁.isClosed := by
  rcases hr1 with hr | hr <;> subst hr <;> (unfold pumpWrite; rw [h1])

lemma pumpWriteRest_expired {Req Resp : Type} (s₁ : Sys Req Resp) (b : Bool)
    (rc : PollRecv (Context × Nat)) (s₂ : Sys Req Resp) (p : Nat × Context)
    (s₃ : Sys Req Resp) (h2 : pollNextCancellation s₁ = (rc, s₂))
    (hrc : rc = .pending ∨ rc = .closed) (h3 : pollExpired s₂ = (some p, s₃)) :
    pumpWriteRest s₁ b = some (.progress, s₃) := by
  rcases hrc with hr | hr <;> subst hr <;>
    (unfold pumpWriteRest; rw [h2]; dsimp only; rw [h3])

/-- C6: when a deadline expiry is reported for an in-flight request while
neither a new request nor a cancellation is ready, the dispatcher treats
the expiry as completion — the expired entry (present in the table, with
its deadline elapsed) is removed — and pump_write makes progress without
writing any frame at all to the transport, in particular no Cancel frame. -/
theorem c6_deadline_expiry_no_cancel_frame {Req Resp : Type} (s : Sys Req Resp)
    (r₁ : PollRecv (DispatchRequest Req)) (s₁ : Sys Req Resp)
    (rc : PollRecv (Context × Nat)) (s₂ : Sys Req Resp) (p : Nat × Context)
    (s₃ : Sys Req Resp)
    (h1 : pollNextRequest s = (r₁, s₁)) (hr1 : r₁ = .pending ∨ r₁ = .closed)
    (h2 : pollNextCancellation s₁ = (rc, s₂)) (hrc : rc = .pending ∨ rc = .closed)
    (h3 : pollExpired s₂ = (some p, s₃)) :
    pumpWrite s = some (.progress, s₃)
    ∧ s₃.sent = s.sent
    ∧ (∃ e : InFlightEntry, (p.1, e) ∈ s₂.in_flight_requests ∧ e.ctx.deadline ≤ s₂.now)
    ∧ s₃.in_flight_requests = removeEntry s₂.in_flight_requests p.1 := by
  have hspec := pollNextRequest_spec s r₁ s₁ h1
  have hsent₁ : s₁.sent = s.sent := by
    rcases hspec with ⟨_, _, hx⟩ | ⟨_, sl, pq, hx, _⟩ <;> (rw [hx]; try rfl)
  obtain ⟨sl, cq, ifl, hupd, _, _, _⟩ :=
    pollNextCancellationGo_spec s₁.canceled_requests s₁ rc s₂ h2
  have hsent₂ : s₂.sent = s₁.sent := by rw [hupd]; rfl
  rcases pollExpired_spec s₂ _ _ h3 with ⟨hno, -, -⟩ | ⟨q, hfind, hsome, h3'⟩
  · cases hno
  have hq : p = (q.1, q.2.ctx) := by
    simpa using hsome
  obtain ⟨hmem, hdl⟩ := findExpiredEntry_mem s₂.now s₂.in_flight_requests q hfind
  refine ⟨?_, ?_, ?_, ?_⟩
  · rw [pumpWrite_eq_rest s r₁ s₁ h1 hr1]
    exact pumpWriteRest_expired s₁ _ rc s₂ p s₃ h2 hrc h3
  · rw [h3']
    simpa [updD] using hsent₂.trans hsent₁
  · refine ⟨q.2, ?_, ?_⟩
    · rw [hq]
      exact hmem
    · exact hdl
  · rw [h3', hq]
    rfl

/-- Concrete state for the C6 witness: one in-flight entry whose deadline
(0) has elapsed at now = 3, with idle queues. -/
def c6WitnessState : Sys Unit Unit :=
  { config := { max_in_flight_requests := 2, pending_request_buffer := 1 },
    next_request_id := 1, total_sends := 1,
    slots := [{ recv := none, closed := false, senderGone := false, complete := false,
                request_id := 0 }],
    pending_requests := [], pending_closed := false, canceled_requests := [],
    canceled_closed := false,
    in_flight_requests := [(0, { ctx := { deadline := 0, trace_context := wCtx.trace_context }, slot := 0 })],
    sent := [], incoming := [], read_closed := false, now := 3 }

/-- The state after the expiry was processed: the entry is gone and its
slot's sender is dropped; nothing was written. -/
def c6WitnessOut : Sys Unit Unit :=
  { c6WitnessState with
    in_flight_requests := [],
    slots := [{ recv := none, closed := false, senderGone := true, complete := false,
                request_id := 0 }] }

theorem c6_deadline_expiry_no_cancel_frame_witness :
    pumpWrite c6WitnessState = some (.progress, c6WitnessOut)
    ∧ c6WitnessOut.sent = c6WitnessState.sent
    ∧ c6WitnessOut.in_flight_requests
      = removeEntry c6WitnessState.in_flight_requests 0 := by
  obtain ⟨ha, hb, _, hd⟩ := c6_deadline_expiry_no_cancel_frame c6WitnessState
    .pending c6WitnessState .pending c6WitnessState
    (0, { deadline := 0, trace_context := wCtx.trace_context }) c6WitnessOut
    (by decide) (Or.inl rfl) (by decide) (Or.inl rfl) (by decide)
  exact ⟨ha, hb, hd⟩

/-! ### Claim C4 -/

lemma pumpRead_spec {Req Resp : Type} (s : Sys Req Resp) (r : PumpResult)
    (s₁ : Sys Req Resp) (h : pumpRead s = (r, s₁)) :
    (∃ resp rest, s.incoming = resp :: rest ∧ r = .progress ∧
       s₁ = (completeRequest { s with incoming := rest } resp).2)
    ∨ (s.incoming = [] ∧ s.read_closed = true ∧ r = .closed ∧ s₁ = s)
    ∨ (s.incoming = [] ∧ s.read_closed = false ∧ r = .pending ∧ s₁ = s) := by
  unfold pumpRead at h
  cases hin : s.incoming with
  | cons resp rest =>
    rw [hin] at h
    injection h with h1 h2
    exact Or.inl ⟨resp, rest, rfl, h1.symm, h2.symm⟩
  | nil =>
    rw [hin] at h
    cases hrc : s.read_closed with
    | true =>
      rw [hrc] at h
      injection h with h1 h2
      exact Or.inr (Or.inl ⟨rfl, rfl, h1.symm, h2.symm⟩)
    | false =>
      rw [hrc] at h
      injection h with h1 h2
      exact Or.inr (Or.inr ⟨rfl, rfl, h1.symm, h2.symm⟩)

lemma completeRequest_frame {Req Resp : Type} (s : Sys Req Resp) (resp : Response Resp) :
    ∃ sl ifl, (completeRequest s resp).2 = updD s sl s.pending_requests
      s.canceled_requests ifl s.sent s.incoming
      ∧ (s.in_flight_requests = [] → ifl = []) := by
  unfold completeRequest
  cases hl : lookupEntry s.in_flight_requests resp.request_id with
  | none =>
    refine ⟨s.slots, s.in_flight_requests, rfl, ?_⟩
    intro hnil
    exact hnil
  | some e =>
    refine ⟨deliverAt s.slots e.slot resp, removeEntry s.in_flight_requests resp.request_id,
      rfl, ?_⟩
    intro hnil
    rw [hnil] at hl
    cases hl

lemma iterOutcome_done_iff (r w : PumpResult) (l : List (Nat × InFlightEntry)) :
    iterOutcome r w l.isEmpty = .done ↔ (r = .closed ∨ (w = .closed ∧ l = [])) := by
  cases r <;> cases w <;> cases l <;> simp [iterOutcome]

lemma iterOutcome_write_closed_empty (r : PumpResult) :
    iterOutcome r .closed true = .done := by
  cases r <;> simp [iterOutcome]

lemma iterOutcome_nonempty (r w : PumpResult) (l : List (Nat × InFlightEntry))
    (hne : l ≠ []) (hr : r ≠ .closed) :
    iterOutcome r w l.isEmpty ≠ .done
    ∧ (w = .closed → iterOutcome r w l.isEmpty
        = (if r = .progress then .again else .sleep)) := by
  cases r <;> cases w <;> cases l <;> simp_all [iterOutcome]

lemma pollExpired_empty {Req Resp : Type} (s : Sys Req Resp)
    (h : s.in_flight_requests = []) : pollExpired s = (none, s) := by
  have hf : findExpiredEntry s.now s.in_flight_requests = none := by
    rw [h]
    rfl
  unfold pollExpired
  rw [hf]

lemma pollNextRequest_closed_of_idle {Req Resp : Type} (s : Sys Req Resp)
    (hcap : ¬ s.in_flight_requests.length ≥ s.config.max_in_flight_requests)
    (hp : s.pending_requests = []) (hpc : s.pending_closed = true) :
    pollNextRequest s = (.closed, { s with pending_requests := [] }) := by
  unfold pollNextRequest
  rw [if_neg hcap, hp]
  unfold pollNextRequestGo
  rw [if_pos hpc]

lemma pollNextCancellation_closed_of_idle {Req Resp : Type} (s : Sys Req Resp)
    (hc : s.canceled_requests = []) (hcc : s.canceled_closed = true) :
    pollNextCancellation s = (.closed, { s with canceled_requests := [] }) := by
  unfold pollNextCancellation
  show pollNextCancellationGo s s.canceled_requests = _
  rw [hc]
  unfold pollNextCancellationGo
  rw [if_pos hcc]

lemma pumpWrite_idle {Req Resp : Type} (s₁ : Sys Req Resp)
    (hmax : 1 ≤ s₁.config.max_in_flight_requests)
    (hp : s₁.pending_requests = []) (hpc : s₁.pending_closed = true)
    (hc : s₁.canceled_requests = []) (hcc : s₁.canceled_closed = true)
    (hi : s₁.in_flight_requests = []) :
    ∃ s', pumpWrite s₁ = some (.closed, s') ∧ s'.in_flight_requests = [] := by
  have hcap : ¬ s₁.in_flight_requests.length ≥ s₁.config.max_in_flight_requests := by
    rw [hi]
    simp only [List.length_nil]
    omega
  have h1 := pollNextRequest_closed_of_idle s₁ hcap hp hpc
  have h2 := pollNextCancellation_closed_of_idle { s₁ with pending_requests := ([] : List (DispatchRequest Req)) } hc hcc
  have h3 := pollExpired_empty { s₁ with pending_requests := ([] : List (DispatchRequest Req)), canceled_requests := ([] : List Nat) } hi
  refine ⟨{ s₁ with pending_requests := [], canceled_requests := [] }, ?_, hi⟩
  rw [pumpWrite_eq_rest s₁ _ _ h1 (Or.inr rfl)]
  unfold pumpWriteRest
  rw [h2]
  dsimp only
  rw [h3]
  rfl

lemma pumpWrite_closed_inv {Req Resp : Type} (s₁ : Sys Req Resp) (w : PumpResult)
    (s₂ : Sys Req Resp) (hwrite : pumpWrite s₁ = some (w, s₂)) (hw : w = .closed) :
    s₁.pending_closed = true ∧ s₁.canceled_closed = true
    ∧ s₂.pending_requests = [] ∧ s₂.canceled_requests = [] := by
  subst hw
  rcases hq : pollNextRequest s₁ with ⟨r₁, s₁'⟩
  have hqspec := pollNextRequest_spec s₁ r₁ s₁' hq
  cases r₁ with
  | item d =>
    have hpw : pumpWrite s₁ = (writeRequest s₁' d).map (fun t => (PumpResult.progress, t)) := by
      unfold pumpWrite
      rw [hq]
    rw [hpw, Option.map_eq_some'] at hwrite
    obtain ⟨t, _, hws⟩ := hwrite
    injection hws with hws1 _
    cases hws1
  | pending =>
    rw [pumpWrite_eq_rest s₁ _ _ hq (Or.inl rfl)] at hwrite
    rcases hc : pollNextCancellation s₁' with ⟨rc, s₂'⟩
    cases rc with
    | item pr =>
      rcases pr with ⟨ctx, id⟩
      have hpw : pumpWriteRest s₁' (PollRecv.isClosed
          (.pending : PollRecv (DispatchRequest Req)))
          = some (.progress, writeCancel s₂' ctx id) := by
        unfold pumpWriteRest
        rw [hc]
      rw [hpw] at hwrite
      injection hwrite with hwrite
      injection hwrite with hw1 _
      cases hw1
    | pending =>
      rcases he : pollExpired s₂' with ⟨eo, s₃'⟩
      cases eo with
      | some p =>
        have hpw : pumpWriteRest s₁' (PollRecv.isClosed
            (.pending : PollRecv (DispatchRequest Req))) = some (.progress, s₃') := by
          unfold pumpWriteRest
          rw [hc]
          dsimp only
          rw [he]
        rw [hpw] at hwrite
        injection hwrite with hwrite
        injection hwrite with hw1 _
        cases hw1
      | none =>
        have hpw : pumpWriteRest s₁' (PollRecv.isClosed
            (.pending : PollRecv (DispatchRequest Req))) = some (.pending, s₃') := by
          unfold pumpWriteRest
          rw [hc]
          dsimp only
          rw [he]
          rfl
        rw [hpw] at hwrite
        injection hwrite with hwrite
        injection hwrite with hw1 _
        cases hw1
    | closed =>
      rcases he : pollExpired s₂' with ⟨eo, s₃'⟩
      cases eo with
      | some p =>
        have hpw : pumpWriteRest s₁' (PollRecv.isClosed
            (.pending : PollRecv (DispatchRequest Req))) = some (.progress, s₃') := by
          unfold pumpWriteRest
          rw [hc]
          dsimp only
          rw [he]
        rw [hpw] at hwrite
        injection hwrite with hwrite
        injection hwrite with hw1 _
        cases hw1
      | none =>
        have hpw : pumpWriteRest s₁' (PollRecv.isClosed
            (.pending : PollRecv (DispatchRequest Req))) = some (.pending, s₃') := by
          unfold pumpWriteRest
          rw [hc]
          dsimp only
          rw [he]
          rfl
        rw [hpw] at hwrite
        injection hwrite with hwrite
        injection hwrite with hw1 _
        cases hw1
  | closed =>
    rw [pumpWrite_eq_rest s₁ _ _ hq (Or.inr rfl)] at hwrite
    have hpcl : s₁.pending_closed = true := by
      rcases hqspec with ⟨_, hx, _⟩ | ⟨_, sl, pq, hupd, skipped, _, hcases⟩
      · cases hx
      · rcases hcases with ⟨d, hx, _, _⟩ | ⟨hx, _, _⟩
        · cases hx
        · by_contra hno
          rw [eq_false_of_ne_true hno] at hx
          cases hx
    have hpq : s₁'.pending_requests = [] := by
      rcases hqspec with ⟨_, hx, _⟩ | ⟨_, sl, pq, hupd, skipped, _, hcases⟩
      · cases hx
      · rcases hcases with ⟨d, hx, _, _⟩ | ⟨hx, _, hpq'⟩
        · cases hx
        · rw [hupd, hpq']
          rfl
    rcases hc : pollNextCancellation s₁' with ⟨rc, s₂'⟩
    obtain ⟨sl, cq, ifl, hupd', _, _, hccases⟩ :=
      pollNextCancellationGo_spec s₁'.canceled_requests s₁' rc s₂' hc
    cases rc with
    | item pr =>
      rcases pr with ⟨ctx, id⟩
      have hpw : pumpWriteRest s₁' (PollRecv.isClosed
          (.closed : PollRecv (DispatchRequest Req)))
          = some (.progress, writeCancel s₂' ctx id) := by
        unfold pumpWriteRest
        rw [hc]
      rw [hpw] at hwrite
      injection hwrite with hwrite
      injection hwrite with hw1 _
      cases hw1
    | pending =>
      rcases he : pollExpired s₂' with ⟨eo, s₃'⟩
      cases eo with
      | some p =>
        have hpw : pumpWriteRest s₁' (PollRecv.isClosed
            (.closed : PollRecv (DispatchRequest Req))) = some (.progress, s₃') := by
          unfold pumpWriteRest
          rw [hc]
          dsimp only
          rw [he]
        rw [hpw] at hwrite
        injection hwrite with hwrite
        injection hwrite with hw1 _
        cases hw1
      | none =>
        have hpw : pumpWriteRest s₁' (PollRecv.isClosed
            (.closed : PollRecv (DispatchRequest Req))) = some (.pending, s₃') := by
          unfold pumpWriteRest
          rw [hc]
          dsimp only
          rw [he]
          rfl
        rw [hpw] at hwrite
        injection hwrite with hwrite
        injection hwrite with hw1 _
        cases hw1
    | closed =>
      have hccl : s₁.canceled_closed = true := by
        rcases hccases with ⟨id, e, hx, _⟩ | ⟨hx, _, _, _, _⟩
        · cases hx
        · by_contra hno
          have hccemb : s₁'.canceled_closed = s₁.canceled_closed := by
            rcases hqspec with ⟨_, hx2, hs⟩ | ⟨_, sl2, pq2, hupd2, _⟩
            · rw [hs]
            · rw [hupd2]
              rfl
          rw [hccemb, eq_false_of_ne_true hno] at hx
          cases hx
      rcases he : pollExpired s₂' with ⟨eo, s₃'⟩
      cases eo with
      | some p =>
        have hpw : pumpWriteRest s₁' (PollRecv.isClosed
            (.closed : PollRecv (DispatchRequest Req))) = some (.progress, s₃') := by
          unfold pumpWriteRest
          rw [hc]
          dsimp only
          rw [he]
        rw [hpw] at hwrite
        injection hwrite with hwrite
        injection hwrite with hw1 _
        cases hw1
      | none =>
        have hpw : pumpWriteRest s₁' (PollRecv.isClosed
            (.closed : PollRecv (DispatchRequest Req))) = some (.closed, s₃') := by
          unfold pumpWriteRest
          rw [hc]
          dsimp only
          rw [he]
          rfl
        rw [hpw] at hwrite
        injection hwrite with hwrite
        injection hwrite with _ hw2
        subst hw2
        have hcq : cq = [] := by
          rcases hccases with ⟨id, e, hx, _⟩ | ⟨_, _, _, _, hx⟩
          · cases hx
          · exact hx
        have hs₃ : s₃' = s₂' := by
          rcases pollExpired_spec s₂' _ _ he with ⟨_, hx, _⟩ | ⟨q, _, hx, _⟩
          · exact hx
          · cases hx
        refine ⟨hpcl, hccl, ?_, ?_⟩
        · rw [hs₃, hupd']
          show s₁'.pending_requests = []
          exact hpq
        · rw [hs₃, hupd']
          show cq = []
          exact hcq

/-- C4 amended: one iteration of the dispatcher poll loop (pump_read, then
pump_write, then the source's match) completes — returns Ready(Ok) —
exactly when the transport read end is at end-of-stream or pump_write
reported both queues closed with the in-flight table empty after the
pass; pump_write reports Closed only when both queue flags are closed and
both queues are drained; and, provided max_in_flight_requests ≥ 1, a
state with both queues closed and empty and an empty in-flight table does
complete.  In the intermediate state — write side closed but in-flight
entries remaining and no read end-of-stream — the iteration does not
complete, and it loops again (driving reads) exactly when the read made
progress.  The capacity proviso max_in_flight_requests ≥ 1 is forced by
the counterexample to the claim as stated. -/
theorem c4_termination_amended {Req Resp : Type} (s : Sys Req Resp)
    (r : PumpResult) (s₁ : Sys Req Resp) (w : PumpResult) (s₂ : Sys Req Resp)
    (hread : pumpRead s = (r, s₁)) (hwrite : pumpWrite s₁ = some (w, s₂))
    (hmax : 1 ≤ s.config.max_in_flight_requests) :
    pollIter s = some (iterOutcome r w s₂.in_flight_requests.isEmpty, s₂)
    ∧ (iterOutcome r w s₂.in_flight_requests.isEmpty = .done
        ↔ (r = .closed ∨ (w = .closed ∧ s₂.in_flight_requests = [])))
    ∧ (r = .closed ↔ s.incoming = [] ∧ s.read_closed = true)
    ∧ (w = .closed → s₁.pending_closed = true ∧ s₁.canceled_closed = true
        ∧ s₂.pending_requests = [] ∧ s₂.canceled_requests = [])
    ∧ (s.pending_closed = true → s.pending_requests = [] → s.canceled_closed = true →
        s.canceled_requests = [] → s.in_flight_requests = [] →
        iterOutcome r w s₂.in_flight_requests.isEmpty = .done)
    ∧ (s₂.in_flight_requests ≠ [] → r ≠ .closed →
        iterOutcome r w s₂.in_flight_requests.isEmpty ≠ .done
        ∧ (w = .closed → iterOutcome r w s₂.in_flight_requests.isEmpty
            = (if r = .progress then .again else .sleep))) := by
  have hrspec := pumpRead_spec s r s₁ hread
  refine ⟨?_, iterOutcome_done_iff r w s₂.in_flight_requests, ?_, ?_, ?_, ?_⟩
  · unfold pollIter
    rw [hread]
    dsimp only
    rw [hwrite]
  · constructor
    · intro hr
      rcases hrspec with ⟨resp, rest, hin, hr', _⟩ | ⟨hin, hrc, _, _⟩ | ⟨hin, hrc, hr', _⟩
      · rw [hr] at hr'; cases hr'
      · exact ⟨hin, hrc⟩
      · rw [hr] at hr'; cases hr'
    · rintro ⟨hin, hrc⟩
      rcases hrspec with ⟨resp, rest, hin', _, _⟩ | ⟨_, _, hr', _⟩ | ⟨hin', hrc', _, _⟩
      · rw [hin] at hin'; cases hin'
      · exact hr'
      · rw [hrc] at hrc'; cases hrc'
  · intro hw
    exact pumpWrite_closed_inv s₁ w s₂ hwrite hw
  · intro hpc hp hcc hcq hifl
    have hidle : ∃ s', pumpWrite s₁ = some (.closed, s') ∧ s'.in_flight_requests = [] := by
      rcases hrspec with ⟨resp, rest, hin, hr', hs₁⟩ | ⟨_, _, _, hs₁⟩ | ⟨_, _, _, hs₁⟩
      · obtain ⟨sl, ifl, hcf, hifl'⟩ :=
          completeRequest_frame { s with incoming := rest } resp
        have hs₁' : s₁ = updD { s with incoming := rest } sl s.pending_requests
            s.canceled_requests ifl s.sent rest := by
          rw [hs₁, hcf]
        refine pumpWrite_idle s₁ ?_ ?_ ?_ ?_ ?_ ?_ <;> rw [hs₁']
        · exact hmax
        · exact hp
        · exact hpc
        · exact hcq
        · exact hcc
        · exact hifl' hifl
      · rw [hs₁]
        exact pumpWrite_idle s hmax hp hpc hcq hcc hifl
      · rw [hs₁]
        exact pumpWrite_idle s hmax hp hpc hcq hcc hifl
    obtain ⟨s', hw', hifl'⟩ := hidle
    rw [hwrite] at hw'
    injection hw' with hw'
    injection hw' with hw1 hw2
    rw [hw1, hw2, hifl']
    exact iterOutcome_write_closed_empty r
  · intro hne hr
    exact iterOutcome_nonempty r w s₂.in_flight_requests hne hr

/-- Configuration with a zero in-flight ceiling, as a caller may set. -/
def c4CexConfig : Config := { max_in_flight_requests := 0, pending_request_buffer := 1 }

/-- A dispatcher with max_in_flight_requests = 0 whose queues are closed
and empty, no request in flight, and whose transport read end is still
open. -/
def c4CexBase : Sys Unit Unit := initSys c4CexConfig

/-- The counterexample state itself. -/
def c4CexState : Sys Unit Unit :=
  { c4CexBase with pending_closed := true, canceled_closed := true }

/-- C4 counterexample: with max_in_flight_requests = 0 the capacity gate
in poll_next_request returns Pending before it could observe that the
pending queue is closed, so in a reachable state where both queues are
closed AND the in-flight table is empty (and the read end has not reached
end-of-stream) the dispatcher iteration yields Pending — and, the state
being a fixed point of the iteration, every later poll yields Pending as
well: the dispatcher never completes although condition (b) of the claim
holds.  This refutes the claimed "completes exactly when" equivalence as
stated. -/
theorem c4_counterexample_zero_capacity :
    Reachable (initSys c4CexConfig : Sys Unit Unit) c4CexState
    ∧ c4CexState.pending_closed = true ∧ c4CexState.pending_requests = []
    ∧ c4CexState.canceled_closed = true ∧ c4CexState.canceled_requests = []
    ∧ c4CexState.in_flight_requests = [] ∧ c4CexState.read_closed = false
    ∧ pollIter c4CexState = some (.sleep, c4CexState)
    ∧ IterOutcome.sleep ≠ IterOutcome.done := by
  refine ⟨?_, rfl, rfl, rfl, rfl, rfl, rfl, by decide, by decide⟩
  have st1 : Step (initSys c4CexConfig : Sys Unit Unit)
      { c4CexBase with pending_closed := true } :=
    Step.closePending c4CexBase
  have st2 : Step { c4CexBase with pending_closed := true } c4CexState :=
    Step.closeCancel { c4CexBase with pending_closed := true }
  exact Relation.ReflTransGen.head st1 (Relation.ReflTransGen.head st2 Relation.ReflTransGen.refl)

/-- A dispatcher state with both queues closed and empty and nothing in
flight, but with a positive in-flight ceiling. -/
def c4WitnessBase : Sys Unit Unit := initSys wCfg

/-- The witness state with both queues closed. -/
def c4WitnessState : Sys Unit Unit :=
  { c4WitnessBase with pending_closed := true, canceled_closed := true }

theorem c4_termination_amended_witness :
    pollIter c4WitnessState = some (.done, c4WitnessState)
    ∧ 1 ≤ c4WitnessState.config.max_in_flight_requests := by
  have h := c4_termination_amended c4WitnessState .pending c4WitnessState .closed
    c4WitnessState rfl (by decide) (by decide)
  refine ⟨?_, by decide⟩
  have h5 := h.2.2.2.2.1 rfl rfl rfl rfl rfl
  have h1 := h.1
  rw [h5] at h1
  exact h1

/-! ### System-level invariants (claims C3 and C9) -/

/-- The request ids currently owned by the dispatcher pipeline: ids of
staged (pending) requests followed by ids of in-flight entries. -/
def idsOf {Req Resp : Type} (s : Sys Req Resp) : List Nat :=
  s.pending_requests.map DispatchRequest.request_id ++ s.in_flight_requests.map Prod.fst

lemma channelSend_ok_spec {Req Resp : Type} (s : Sys Req Resp) (ctx : Context)
    (request : Req) (freshSpan : Nat) (s' : Sys Req Resp) (id : Nat)
    (h : channelSend s ctx request freshSpan = .ok (s', id)) :
    id = s.next_request_id
    ∧ s'.config = s.config
    ∧ s'.next_request_id = (s.next_request_id + 1) % USIZE_MOD
    ∧ s'.total_sends = s.total_sends + 1
    ∧ s'.in_flight_requests = s.in_flight_requests
    ∧ s'.canceled_requests = s.canceled_requests
    ∧ s'.pending_closed = s.pending_closed
    ∧ s'.canceled_closed = s.canceled_closed
    ∧ s'.sent = s.sent ∧ s'.incoming = s.incoming ∧ s'.read_closed = s.read_closed
    ∧ s'.now = s.now
    ∧ ∃ d : DispatchRequest Req, d.request_id = s.next_request_id
        ∧ s'.pending_requests = s.pending_requests ++ [d] := by
  unfold channelSend at h
  by_cases hp : s.pending_closed
  · rw [hp] at h
    simp at h
  · rw [eq_false_of_ne_true hp] at h
    injection h with h
    injection h with hA hB
    subst hA
    subst hB
    refine ⟨rfl, rfl, rfl, rfl, rfl, rfl, (eq_false_of_ne_true hp).symm, rfl, rfl, rfl,
      rfl, rfl, ?_⟩
    exact ⟨_, rfl, rfl⟩

lemma foldlDrop_fields {Req Resp : Type} :
    ∀ (l : List DropEffect) (s : Sys Req Resp),
      (l.foldl applyDropEffect s).config = s.config
      ∧ (l.foldl applyDropEffect s).next_request_id = s.next_request_id
      ∧ (l.foldl applyDropEffect s).total_sends = s.total_sends
      ∧ (l.foldl applyDropEffect s).pending_requests = s.pending_requests
      ∧ (l.foldl applyDropEffect s).in_flight_requests = s.in_flight_requests
      ∧ (l.foldl applyDropEffect s).pending_closed = s.pending_closed
      ∧ (l.foldl applyDropEffect s).canceled_closed = s.canceled_closed := by
  intro l
  induction l with
  | nil => intro s; exact ⟨rfl, rfl, rfl, rfl, rfl, rfl, rfl⟩
  | cons e rest ih =>
    intro s
    have h := ih (applyDropEffect s e)
    cases e <;> simpa [applyDropEffect] using h

lemma completeRequest_inflight_sublist {Req Resp : Type} (s : Sys Req Resp)
    (resp : Response Resp) :
    List.Sublist (completeRequest s resp).2.in_flight_requests s.in_flight_requests := by
  unfold completeRequest
  cases hl : lookupEntry s.in_flight_requests resp.request_id with
  | none => exact List.Sublist.refl _
  | some e => exact removeEntry_sublist _ _

lemma pumpRead_inv {Req Resp : Type} (s : Sys Req Resp) (r : PumpResult)
    (s₁ : Sys Req Resp) (h : pumpRead s = (r, s₁)) :
    s₁.config = s.config ∧ s₁.next_request_id = s.next_request_id
    ∧ s₁.total_sends = s.total_sends
    ∧ s₁.pending_requests = s.pending_requests
    ∧ s₁.pending_closed = s.pending_closed ∧ s₁.canceled_closed = s.canceled_closed
    ∧ List.Sublist s₁.in_flight_requests s.in_flight_requests := by
  rcases pumpRead_spec s r s₁ h with ⟨resp, rest, hin, _, hs₁⟩ | ⟨_, _, _, hs₁⟩ | ⟨_, _, _, hs₁⟩
  · obtain ⟨sl, ifl, hcf, _⟩ := completeRequest_frame { s with incoming := rest } resp
    have hsub : List.Sublist s₁.in_flight_requests s.in_flight_requests := by
      rw [hs₁]
      exact completeRequest_inflight_sublist { s with incoming := rest } resp
    have hs₁' : s₁ = updD { s with incoming := rest } sl s.pending_requests
        s.canceled_requests ifl s.sent rest := by
      rw [hs₁, hcf]
    refine ⟨?_, ?_, ?_, ?_, ?_, ?_, hsub⟩ <;> (rw [hs₁']; rfl)
  · subst hs₁
    exact ⟨rfl, rfl, rfl, rfl, rfl, rfl, List.Sublist.refl _⟩
  · subst hs₁
    exact ⟨rfl, rfl, rfl, rfl, rfl, rfl, List.Sublist.refl _⟩

lemma pumpWriteRest_inv_cases {Req Resp : Type} (s₁ : Sys Req Resp) (b : Bool)
    (w : PumpResult) (s'' : Sys Req Resp) (hw : pumpWriteRest s₁ b = some (w, s'')) :
    (∃ ctx id s₂, pollNextCancellation s₁ = (.item (ctx, id), s₂) ∧ w = .progress ∧
        s'' = writeCancel s₂ ctx id)
    ∨ (∃ rc s₂ p s₃, pollNextCancellation s₁ = (rc, s₂) ∧ (rc = .pending ∨ rc = .closed) ∧
        pollExpired s₂ = (some p, s₃) ∧ w = .progress ∧ s'' = s₃)
    ∨ (∃ rc s₂ s₃, pollNextCancellation s₁ = (rc, s₂) ∧ (rc = .pending ∨ rc = .closed) ∧
        pollExpired s₂ = (none, s₃) ∧ s'' = s₃) := by
  rcases hc : pollNextCancellation s₁ with ⟨rc, s₂⟩
  cases rc with
  | item pr =>
    rcases pr with ⟨ctx, id⟩
    have hpw : pumpWriteRest s₁ b = some (.progress, writeCancel s₂ ctx id) := by
      unfold pumpWriteRest
      rw [hc]
    rw [hpw] at hw
    injection hw with hw
    injection hw with hw1 hw2
    exact Or.inl ⟨ctx, id, s₂, rfl, hw1.symm, hw2.symm⟩
  | pending =>
    rcases he : pollExpired s₂ with ⟨eo, s₃⟩
    cases eo with
    | some p =>
      have hpw : pumpWriteRest s₁ b = some (.progress, s₃) := by
        unfold pumpWriteRest
        rw [hc]
        dsimp only
        rw [he]
      rw [hpw] at hw
      injection hw with hw
      injection hw with hw1 hw2
      exact Or.inr (Or.inl ⟨_, s₂, p, s₃, rfl, Or.inl rfl, he, hw1.symm, hw2.symm⟩)
    | none =>
      have hpw : pumpWriteRest s₁ b =
          (if (b && PollRecv.isClosed (.pending : PollRecv (Context × Nat))) = true then
            some (.closed, s₃) else some (.pending, s₃)) := by
        unfold pumpWriteRest
        rw [hc]
        dsimp only
        rw [he]
      rw [hpw] at hw
      simp only [PollRecv.isClosed, Bool.and_false, Bool.false_eq_true, if_false] at hw
      injection hw with hw
      injection hw with hw1 hw2
      exact Or.inr (Or.inr ⟨_, s₂, s₃, rfl, Or.inl rfl, he, hw2.symm⟩)
  | closed =>
    rcases he : pollExpired s₂ with ⟨eo, s₃⟩
    cases eo with
    | some p =>
      have hpw : pumpWriteRest s₁ b = some (.progress, s₃) := by
        unfold pumpWriteRest
        rw [hc]
        dsimp only
        rw [he]
      rw [hpw] at hw
      injection hw with hw
      injection hw with hw1 hw2
      exact Or.inr (Or.inl ⟨_, s₂, p, s₃, rfl, Or.inr rfl, he, hw1.symm, hw2.symm⟩)
    | none =>
      cases hb : b with
      | true =>
        have hpw : pumpWriteRest s₁ true = some (.closed, s₃) := by
          unfold pumpWriteRest
          rw [hc]
          dsimp only
          rw [he]
          rfl
        rw [hb, hpw] at hw
        injection hw with hw
        injection hw with hw1 hw2
        exact Or.inr (Or.inr ⟨_, s₂, s₃, rfl, Or.inr rfl, he, hw2.symm⟩)
      | false =>
        have hpw : pumpWriteRest s₁ false = some (.pending, s₃) := by
          unfold pumpWriteRest
          rw [hc]
          dsimp only
          rw [he]
          rfl
        rw [hb, hpw] at hw
        injection hw with hw
        injection hw with hw1 hw2
        exact Or.inr (Or.inr ⟨_, s₂, s₃, rfl, Or.inr rfl, he, hw2.symm⟩)

lemma pumpWriteRest_sub {Req Resp : Type} (s₁ : Sys Req Resp) (b : Bool)
    (w : PumpResult) (s'' : Sys Req Resp) (hw : pumpWriteRest s₁ b = some (w, s'')) :
    s''.config = s₁.config ∧ s''.next_request_id = s₁.next_request_id
    ∧ s''.total_sends = s₁.total_sends
    ∧ s''.pending_requests = s₁.pending_requests
    ∧ s''.pending_closed = s₁.pending_closed ∧ s''.canceled_closed = s₁.canceled_closed
    ∧ List.Sublist s''.in_flight_requests s₁.in_flight_requests := by
  have hcase := pumpWriteRest_inv_cases s₁ b w s'' hw
  rcases hcase with ⟨ctx, id, s₂, hc, _, hs''⟩ |
      ⟨rc, s₂, p, s₃, hc, _, he, _, hs''⟩ | ⟨rc, s₂, s₃, hc, _, he, hs''⟩
  · obtain ⟨sl, cq, ifl, hupd, _, _, hcases⟩ :=
      pollNextCancellationGo_spec s₁.canceled_requests s₁ _ s₂ hc
    have hsub₂ : List.Sublist s₂.in_flight_requests s₁.in_flight_requests := by
      rcases hcases with ⟨id', e, _, _, hifl, _, _⟩ | ⟨_, _, hifl, _, _⟩
      · rw [hupd]
        show List.Sublist ifl s₁.in_flight_requests
        rw [hifl]
        exact removeEntry_sublist _ _
      · rw [hupd]
        show List.Sublist ifl s₁.in_flight_requests
        rw [hifl]
    subst hs''
    refine ⟨?_, ?_, ?_, ?_, ?_, ?_, hsub₂⟩ <;> (rw [hupd]; rfl)
  · obtain ⟨sl, cq, ifl, hupd, _, _, hcases⟩ :=
      pollNextCancellationGo_spec s₁.canceled_requests s₁ _ s₂ hc
    have hsub₂ : List.Sublist s₂.in_flight_requests s₁.in_flight_requests := by
      rcases hcases with ⟨id', e, _, _, hifl, _, _⟩ | ⟨_, _, hifl, _, _⟩
      · rw [hupd]
        show List.Sublist ifl s₁.in_flight_requests
        rw [hifl]
        exact removeEntry_sublist _ _
      · rw [hupd]
        show List.Sublist ifl s₁.in_flight_requests
        rw [hifl]
    rcases pollExpired_spec s₂ _ _ he with ⟨hno, -, -⟩ | ⟨q, _, _, h3'⟩
    · cases hno
    subst hs''
    have hsub₃ : List.Sublist s''.in_flight_requests s₂.in_flight_requests := by
      rw [h3']
      show List.Sublist (removeEntry s₂.in_flight_requests q.1) s₂.in_flight_requests
      exact removeEntry_sublist _ _
    refine ⟨?_, ?_, ?_, ?_, ?_, ?_, hsub₃.trans hsub₂⟩ <;> (rw [h3', hupd]; rfl)
  · obtain ⟨sl, cq, ifl, hupd, _, _, hcases⟩ :=
      pollNextCancellationGo_spec s₁.canceled_requests s₁ _ s₂ hc
    have hsub₂ : List.Sublist s₂.in_flight_requests s₁.in_flight_requests := by
      rcases hcases with ⟨id', e, _, _, hifl, _, _⟩ | ⟨_, _, hifl, _, _⟩
      · rw [hupd]
        show List.Sublist ifl s₁.in_flight_requests
        rw [hifl]
        exact removeEntry_sublist _ _
      · rw [hupd]
        show List.Sublist ifl s₁.in_flight_requests
        rw [hifl]
    rcases pollExpired_spec s₂ _ _ he with ⟨-, hs₃, -⟩ | ⟨q, _, hx, _⟩
    · subst hs₃
      subst hs''
      refine ⟨?_, ?_, ?_, ?_, ?_, ?_, hsub₂⟩ <;> (rw [hupd]; rfl)
    · cases hx

lemma pumpWrite_inv {Req Resp : Type} (s : Sys Req Resp) (w : PumpResult)
    (s'' : Sys Req Resp) (hw : pumpWrite s = some (w, s'')) :
    s''.config = s.config ∧ s''.next_request_id = s.next_request_id
    ∧ s''.total_sends = s.total_sends
    ∧ s''.pending_closed = s.pending_closed ∧ s''.canceled_closed = s.canceled_closed
    ∧ (s.in_flight_requests.length ≤ s.config.max_in_flight_requests →
        s''.in_flight_requests.length ≤ s.config.max_in_flight_requests)
    ∧ List.Subperm (idsOf s'') (idsOf s) := by
  rcases h : pollNextRequest s with ⟨r, s₁⟩
  have hspec := pollNextRequest_spec s r s₁ h
  cases r with
  | item d =>
    have hpw : pumpWrite s = (writeRequest s₁ d).map (fun t => (PumpResult.progress, t)) := by
      unfold pumpWrite
      rw [h]
    rw [hpw, Option.map_eq_some'] at hw
    obtain ⟨t, hwr, hws⟩ := hw
    injection hws with hws1 hws2
    unfold writeRequest at hwr
    rcases hi : insertRequest s₁.in_flight_requests d.request_id d.ctx d.response_completion
      with _ | tt
    · rw [hi] at hwr
      cases hwr
    rw [hi] at hwr
    injection hwr with hwr
    obtain ⟨ht, _⟩ := insertRequest_eq _ _ _ _ _ hi
    have hrec : s'' = { s₁ with in_flight_requests := tt, sent := s₁.sent ++ [requestFrame d] } := by
      rw [hwr, ← hws2]
    rcases hspec with ⟨_, hx, _⟩ | ⟨hlen, sl, pq, hupd, skipped, _, hcases⟩
    · cases hx
    rcases hcases with ⟨d', hx, _, hq⟩ | ⟨hx, _, _⟩
    · injection hx with hx
      subst hx
      have hfields : s''.config = s.config ∧ s''.next_request_id = s.next_request_id
          ∧ s''.total_sends = s.total_sends ∧ s''.pending_closed = s.pending_closed
          ∧ s''.canceled_closed = s.canceled_closed := by
        refine ⟨?_, ?_, ?_, ?_, ?_⟩ <;> (rw [hrec, hupd]; rfl)
      have hifl'' : s''.in_flight_requests = s.in_flight_requests
          ++ [(d.request_id, { ctx := d.ctx, slot := d.response_completion })] := by
        rw [hrec]
        show tt = _
        rw [ht, hupd]
        rfl
      have hpend'' : s''.pending_requests = pq := by
        rw [hrec]
        show s₁.pending_requests = pq
        rw [hupd]
        rfl
      refine ⟨hfields.1, hfields.2.1, hfields.2.2.1, hfields.2.2.2.1, hfields.2.2.2.2, ?_, ?_⟩
      · intro _
        rw [hifl'']
        simp only [List.length_append, List.length_cons, List.length_nil]
        omega
      · unfold idsOf
        rw [hifl'', hpend'', hq]
        simp only [List.map_append, List.map_cons, List.map_nil]
        refine ⟨d.request_id :: (pq.map DispatchRequest.request_id
            ++ s.in_flight_requests.map Prod.fst), ?_, ?_⟩
        · rw [← List.append_assoc]
          exact (List.perm_append_singleton _ _).symm
        · rw [List.append_assoc, List.cons_append]
          exact List.sublist_append_right _ _
    · split at hx <;> cases hx
  | pending =>
    have hpw : pumpWrite s = pumpWriteRest s₁ (PollRecv.isClosed
        (.pending : PollRecv (DispatchRequest Req))) := by
      unfold pumpWrite
      rw [h]
    rw [hpw] at hw
    obtain ⟨hcfg, hnri, hts, hpend, hpcl, hccl, hsub⟩ := pumpWriteRest_sub s₁ _ w s'' hw
    rcases hspec with ⟨_, _, hs₁⟩ | ⟨hlen, sl, pq, hupd, skipped, _, hcases⟩
    · subst hs₁
      refine ⟨hcfg, hnri, hts, hpcl, hccl, ?_, ?_⟩
      · intro hle
        exact le_trans (hsub.length_le) hle
      · unfold idsOf
        rw [hpend]
        exact (List.Sublist.append (List.Sublist.refl _) (hsub.map Prod.fst)).subperm
    · rcases hcases with ⟨d', hx, _, _⟩ | ⟨hx, hskip, hpq⟩
      · cases hx
      have hifl₁ : s₁.in_flight_requests = s.in_flight_requests := by
        rw [hupd]
        rfl
      have hp₁ : s₁.pending_requests = [] := by
        rw [hupd]
        show pq = []
        exact hpq
      have hcfg₁ : s₁.config = s.config := by
        rw [hupd]
        rfl
      refine ⟨hcfg.trans hcfg₁, by rw [hnri, hupd]; rfl, by rw [hts, hupd]; rfl,
        by rw [hpcl, hupd]; rfl, by rw [hccl, hupd]; rfl, ?_, ?_⟩
      · intro hle
        calc s''.in_flight_requests.length
            ≤ s₁.in_flight_requests.length := hsub.length_le
          _ = s.in_flight_requests.length := by rw [hifl₁]
          _ ≤ s.config.max_in_flight_requests := hle
      · unfold idsOf
        have hsinfl : List.Sublist s''.in_flight_requests s.in_flight_requests := by
          rw [← hifl₁]
          exact hsub
        rw [hpend, hp₁]
        simp only [List.map_nil, List.nil_append]
        exact ((hsinfl.map Prod.fst).trans (List.sublist_append_right _ _)).subperm
  | closed =>
    have hpw : pumpWrite s = pumpWriteRest s₁ (PollRecv.isClosed
        (.closed : PollRecv (DispatchRequest Req))) := by
      unfold pumpWrite
      rw [h]
    rw [hpw] at hw
    obtain ⟨hcfg, hnri, hts, hpend, hpcl, hccl, hsub⟩ := pumpWriteRest_sub s₁ _ w s'' hw
    rcases hspec with ⟨_, hx, _⟩ | ⟨hlen, sl, pq, hupd, skipped, _, hcases⟩
    · cases hx
    rcases hcases with ⟨d', hx, _, _⟩ | ⟨hx, hskip, hpq⟩
    · cases hx
    have hifl₁ : s₁.in_flight_requests = s.in_flight_requests := by
      rw [hupd]
      rfl
    have hp₁ : s₁.pending_requests = [] := by
      rw [hupd]
      show pq = []
      exact hpq
    have hcfg₁ : s₁.config = s.config := by
      rw [hupd]
      rfl
    refine ⟨hcfg.trans hcfg₁, by rw [hnri, hupd]; rfl, by rw [hts, hupd]; rfl,
      by rw [hpcl, hupd]; rfl, by rw [hccl, hupd]; rfl, ?_, ?_⟩
    · intro hle
      calc s''.in_flight_requests.length
          ≤ s₁.in_flight_requests.length := hsub.length_le
        _ = s.in_flight_requests.length := by rw [hifl₁]
        _ ≤ s.config.max_in_flight_requests := hle
    · unfold idsOf
      have hsinfl : List.Sublist s''.in_flight_requests s.in_flight_requests := by
        rw [← hifl₁]
        exact hsub
      rw [hpend, hp₁]
      simp only [List.map_nil, List.nil_append]
      exact ((hsinfl.map Prod.fst).trans (List.sublist_append_right _ _)).subperm

lemma pollIter_inv_cases {Req Resp : Type} (s : Sys Req Resp) (o : IterOutcome)
    (s' : Sys Req Resp) (h : pollIter s = some (o, s')) :
    ∃ r s₁ w, pumpRead s = (r, s₁) ∧ pumpWrite s₁ = some (w, s') := by
  rcases hr : pumpRead s with ⟨r, s₁⟩
  have hpi : pollIter s = (match pumpWrite s₁ with
      | none => none
      | some (w, s₂) => some (iterOutcome r w s₂.in_flight_requests.isEmpty, s₂)) := by
    unfold pollIter
    rw [hr]
  rw [hpi] at h
  rcases hw : pumpWrite s₁ with _ | ⟨w, s₂⟩
  · rw [hw] at h
    cases h
  · rw [hw] at h
    injection h with h
    injection h with _ h2
    subst h2
    exact ⟨r, s₁, w, rfl, hw⟩

/-- Preservation of the in-flight capacity bound by every system step.
The configuration is also preserved. -/
lemma step_inv_len {Req Resp : Type} (s s' : Sys Req Resp) (hstep : Step s s') :
    s'.config = s.config
    ∧ (s.in_flight_requests.length ≤ s.config.max_in_flight_requests →
       s'.in_flight_requests.length ≤ s'.config.max_in_flight_requests) := by
  cases hstep with
  | send ctx request freshSpan s' id hbuf hsend =>
    obtain ⟨_, hcfg, _, _, hifl, _⟩ := channelSend_ok_spec s ctx request freshSpan s' id hsend
    rw [hcfg, hifl]
    exact ⟨rfl, fun h => h⟩
  | dropHandle i sl hsl hcl =>
    obtain ⟨hcfg, _, _, _, hifl, _⟩ := foldlDrop_fields
      (dispatchResponseDropEffects sl.complete i sl.request_id) s
    unfold dropDispatchResponse
    rw [hcfg, hifl]
    exact ⟨rfl, fun h => h⟩
  | respond resp q hmem hid => exact ⟨rfl, fun h => h⟩
  | pollStep o s' hpi =>
    obtain ⟨r, s₁, w, hread, hwrite⟩ := pollIter_inv_cases s o s' hpi
    obtain ⟨hcfg₁, _, _, _, _, _, hsub₁⟩ := pumpRead_inv s r s₁ hread
    obtain ⟨hcfg₂, _, _, _, _, hlen₂, _⟩ := pumpWrite_inv s₁ w s' hwrite
    refine ⟨hcfg₂.trans hcfg₁, ?_⟩
    intro hle
    rw [hcfg₂.trans hcfg₁]
    have h1 : s₁.in_flight_requests.length ≤ s₁.config.max_in_flight_requests := by
      rw [hcfg₁]
      exact le_trans hsub₁.length_le hle
    have := hlen₂ h1
    rwa [hcfg₁] at this
  | tick => exact ⟨rfl, fun h => h⟩
  | closePending => exact ⟨rfl, fun h => h⟩
  | closeCancel => exact ⟨rfl, fun h => h⟩
  | closeRead => exact ⟨rfl, fun h => h⟩

lemma reachable_config {Req Resp : Type} (s₀ s : Sys Req Resp) (h : Reachable s₀ s) :
    s.config = s₀.config := by
  induction h with
  | refl => rfl
  | tail hsteps hstep ih => exact (step_inv_len _ _ hstep).1.trans ih

lemma reachable_inflight_le {Req Resp : Type} (cfg : Config) (s : Sys Req Resp)
    (h : Reachable (initSys cfg) s) :
    s.in_flight_requests.length ≤ s.config.max_in_flight_requests := by
  induction h with
  | refl => exact Nat.zero_le _
  | tail hsteps hstep ih => exact (step_inv_len _ _ hstep).2 ih

/-- C3: in every state reachable by the client-side system the in-flight
table holds at most max_in_flight_requests entries; poll_next_request
returns Pending — dequeuing nothing — whenever the table is at or above
capacity; a request is only ever yielded (and hence only ever inserted by
write_request, which grows the table by exactly one) when the capacity
check passed. -/
theorem c3_in_flight_bounded {Req Resp : Type} (cfg : Config) (s : Sys Req Resp)
    (h : Reachable (initSys cfg) s) :
    s.in_flight_requests.length ≤ s.config.max_in_flight_requests
    ∧ (∀ s₀ : Sys Req Resp,
        s₀.in_flight_requests.length ≥ s₀.config.max_in_flight_requests →
        pollNextRequest s₀ = (.pending, s₀))
    ∧ (∀ (s₀ : Sys Req Resp) (d : DispatchRequest Req) (s₁ : Sys Req Resp),
        pollNextRequest s₀ = (.item d, s₁) →
        s₀.in_flight_requests.length < s₀.config.max_in_flight_requests)
    ∧ (∀ (s₀ : Sys Req Resp) (d : DispatchRequest Req) (t : Sys Req Resp),
        writeRequest s₀ d = some t →
        t.in_flight_requests.length = s₀.in_flight_requests.length + 1) := by
  refine ⟨reachable_inflight_le cfg s h, ?_, ?_, ?_⟩
  · intro s₀ hge
    unfold pollNextRequest
    rw [if_pos hge]
  · intro s₀ d s₁ hpoll
    rcases pollNextRequest_spec s₀ _ _ hpoll with ⟨_, hx, _⟩ | ⟨hlen, _⟩
    · cases hx
    · exact hlen
  · intro s₀ d t hwr
    unfold writeRequest at hwr
    rcases hi : insertRequest s₀.in_flight_requests d.request_id d.ctx d.response_completion
      with _ | tt
    · rw [hi] at hwr
      cases hwr
    · rw [hi] at hwr
      injection hwr with hwr
      obtain ⟨ht, _⟩ := insertRequest_eq _ _ _ _ _ hi
      rw [← hwr]
      show tt.length = _
      rw [ht]
      simp

/-- A state whose in-flight table is exactly at capacity. -/
def c3CapState : Sys Unit Unit :=
  { (initSys wCfg : Sys Unit Unit) with
    in_flight_requests := [(0, { ctx := wCtx, slot := 0 })] }

theorem c3_in_flight_bounded_witness :
    (initSys wCfg : Sys Unit Unit).in_flight_requests.length
      ≤ (initSys wCfg : Sys Unit Unit).config.max_in_flight_requests
    ∧ pollNextRequest c3CapState = (.pending, c3CapState) := by
  have h := c3_in_flight_bounded wCfg (initSys wCfg : Sys Unit Unit)
    Relation.ReflTransGen.refl
  exact ⟨h.1, h.2.1 c3CapState (by decide)⟩

/-! ### Claim C9 -/

/-- The id bookkeeping invariant of the client system: every staged or
in-flight id was allocated by an earlier send, the ids are pairwise
distinct as long as the counter has not wrapped, and the stored usize
counter is the ghost send count modulo 2 ^ 64. -/
def GoodIds {Req Resp : Type} (s : Sys Req Resp) : Prop :=
  (∀ id ∈ idsOf s, id < s.total_sends)
  ∧ (s.total_sends ≤ USIZE_MOD → (idsOf s).Nodup)
  ∧ s.next_request_id = s.total_sends % USIZE_MOD

lemma succ_mod_eq (ts : Nat) : (ts % USIZE_MOD + 1) % USIZE_MOD = (ts + 1) % USIZE_MOD := by
  conv_rhs => rw [Nat.add_mod]
  rw [Nat.mod_eq_of_lt one_lt_USIZE_MOD]

lemma step_inv_ids {Req Resp : Type} (s s' : Sys Req Resp) (hstep : Step s s')
    (hinv : GoodIds s) : GoodIds s' := by
  obtain ⟨hbound, hnodup, hctr⟩ := hinv
  cases hstep with
  | send ctx request freshSpan s' id hbuf hsend =>
    obtain ⟨hid, _, hctr', hts', hifl, _, _, _, _, _, _, _, d, hdid, hpend⟩ :=
      channelSend_ok_spec s ctx request freshSpan s' id hsend
    have hids' : idsOf s' = (s.pending_requests.map DispatchRequest.request_id
        ++ [s.next_request_id]) ++ s.in_flight_requests.map Prod.fst := by
      unfold idsOf
      rw [hpend, hifl, List.map_append]
      simp [hdid]
    have hperm : List.Perm (idsOf s')
        (s.next_request_id :: idsOf s) := by
      rw [hids']
      unfold idsOf
      rw [List.append_assoc, List.singleton_append]
      exact List.perm_middle
    refine ⟨?_, ?_, ?_⟩
    · intro i hi
      rw [hts']
      have hi' : i ∈ s.next_request_id :: idsOf s := hperm.subset hi
      rcases List.mem_cons.1 hi' with h1 | h1
      · subst h1
        rw [hctr]
        exact Nat.lt_succ_of_le (Nat.mod_le _ _)
      · exact Nat.lt_succ_of_lt (hbound i h1)
    · intro hts
      rw [hts'] at hts
      have htslt : s.total_sends < USIZE_MOD := hts
      refine (hperm.symm).nodup ?_
      refine List.Nodup.cons ?_ (hnodup (Nat.le_of_lt htslt))
      intro hmem
      have := hbound _ hmem
      rw [hctr, Nat.mod_eq_of_lt htslt] at this
      omega
    · rw [hctr', hts', hctr]
      exact succ_mod_eq s.total_sends
  | dropHandle i sl hsl hcl =>
    obtain ⟨_, hctr', hts', hpend, hifl, _, _⟩ := foldlDrop_fields
      (dispatchResponseDropEffects sl.complete i sl.request_id) s
    have hids : idsOf (dropDispatchResponse s i sl) = idsOf s := by
      unfold idsOf dropDispatchResponse
      rw [hpend, hifl]
    have hc2 : (dropDispatchResponse s i sl).next_request_id = s.next_request_id := hctr'
    have ht2 : (dropDispatchResponse s i sl).total_sends = s.total_sends := hts'
    unfold GoodIds
    rw [hids, hc2, ht2]
    exact ⟨hbound, hnodup, hctr⟩
  | respond resp q hmem hid => exact ⟨hbound, hnodup, hctr⟩
  | pollStep o s' hpi =>
    obtain ⟨r, s₁, w, hread, hwrite⟩ := pollIter_inv_cases s o s' hpi
    obtain ⟨_, hctr₁, hts₁, hpend₁, _, _, hsub₁⟩ := pumpRead_inv s r s₁ hread
    obtain ⟨_, hctr₂, hts₂, _, _, _, hsubperm₂⟩ := pumpWrite_inv s₁ w s' hwrite
    have hsubperm₁ : List.Subperm (idsOf s₁) (idsOf s) := by
      unfold idsOf
      rw [hpend₁]
      exact (List.Sublist.append (List.Sublist.refl _) (hsub₁.map Prod.fst)).subperm
    have hsubperm := hsubperm₂.trans hsubperm₁
    refine ⟨?_, ?_, ?_⟩
    · intro i hi
      rw [hts₂, hts₁]
      exact hbound i (hsubperm.subset hi)
    · intro hts
      rw [hts₂, hts₁] at hts
      exact subperm_nodup hsubperm (hnodup hts)
    · rw [hctr₂, hctr₁, hts₂, hts₁, hctr]
  | tick => exact ⟨hbound, hnodup, hctr⟩
  | closePending => exact ⟨hbound, hnodup, hctr⟩
  | closeCancel => exact ⟨hbound, hnodup, hctr⟩
  | closeRead => exact ⟨hbound, hnodup, hctr⟩

lemma reachable_goodIds {Req Resp : Type} (cfg : Config) (s : Sys Req Resp)
    (h : Reachable (initSys cfg) s) : GoodIds s := by
  induction h with
  | refl =>
    refine ⟨?_, ?_, rfl⟩
    · intro i hi
      simp [idsOf, initSys] at hi
    · intro hts
      simp [idsOf, initSys]
  | tail hsteps hstep ih => exact step_inv_ids _ _ hstep ih

lemma pumpWriteRest_isSome {Req Resp : Type} (s₁ : Sys Req Resp) (b : Bool) :
    (pumpWriteRest s₁ b).isSome = true := by
  rcases hc : pollNextCancellation s₁ with ⟨rc, s₂⟩
  cases rc with
  | item pr =>
    rcases pr with ⟨ctx, id⟩
    have hpw : pumpWriteRest s₁ b = some (.progress, writeCancel s₂ ctx id) := by
      unfold pumpWriteRest
      rw [hc]
    rw [hpw]
    rfl
  | pending =>
    rcases he : pollExpired s₂ with ⟨eo, s₃⟩
    cases eo with
    | some p =>
      have hpw : pumpWriteRest s₁ b = some (.progress, s₃) := by
        unfold pumpWriteRest
        rw [hc]
        dsimp only
        rw [he]
      rw [hpw]
      rfl
    | none =>
      have hpw : pumpWriteRest s₁ b =
          (if (b && PollRecv.isClosed (.pending : PollRecv (Context × Nat))) = true then
            some (.closed, s₃) else some (.pending, s₃)) := by
        unfold pumpWriteRest
        rw [hc]
        dsimp only
        rw [he]
      rw [hpw]
      split <;> rfl
  | closed =>
    rcases he : pollExpired s₂ with ⟨eo, s₃⟩
    cases eo with
    | some p =>
      have hpw : pumpWriteRest s₁ b = some (.progress, s₃) := by
        unfold pumpWriteRest
        rw [hc]
        dsimp only
        rw [he]
      rw [hpw]
      rfl
    | none =>
      have hpw : pumpWriteRest s₁ b =
          (if (b && PollRecv.isClosed (.closed : PollRecv (Context × Nat))) = true then
            some (.closed, s₃) else some (.pending, s₃)) := by
        unfold pumpWriteRest
        rw [hc]
        dsimp only
        rw [he]
      rw [hpw]
      split <;> rfl

lemma goodIds_insert_ok {Req Resp : Type} (s : Sys Req Resp)
    (hnd : (idsOf s).Nodup) (d : DispatchRequest Req) (s₁ : Sys Req Resp)
    (h : pollNextRequest s = (.item d, s₁)) :
    s₁.in_flight_requests = s.in_flight_requests ∧
    insertRequest s₁.in_flight_requests d.request_id d.ctx d.response_completion
      = some (s₁.in_flight_requests
          ++ [(d.request_id, { ctx := d.ctx, slot := d.response_completion })]) := by
  rcases pollNextRequest_spec s _ s₁ h with ⟨hcap, hr, _⟩ |
    ⟨hcap, sl, pq, hupd, skipped, hsk, hcases⟩
  · cases hr
  · have hifl : s₁.in_flight_requests = s.in_flight_requests := by
      rw [hupd]
      rfl
    rcases hcases with ⟨d', hr, hop, hpend⟩ | ⟨hr, _, _⟩
    · have hd' : d = d' := by injection hr
      subst hd'
      have hdmem : d.request_id ∈ s.pending_requests.map DispatchRequest.request_id := by
        rw [hpend]
        simp
      have hdisj := (List.nodup_append.1 hnd).2.2
      have hnotin : d.request_id ∉ s.in_flight_requests.map Prod.fst :=
        fun hmem => hdisj hdmem hmem
      have hns : (lookupEntry s₁.in_flight_requests d.request_id).isSome = false := by
        rw [hifl, Bool.eq_false_iff]
        intro htrue
        exact hnotin ((lookupEntry_isSome_iff _ _).1 htrue)
      refine ⟨hifl, ?_⟩
      unfold insertRequest
      rw [hns]
      rfl
    · by_cases hc : s.pending_closed <;> simp [hc] at hr

/-- C9 amended: as long as the channel has performed at most 2 ^ 64 sends,
every reachable dispatcher state has pairwise distinct staged and in-flight
request ids, so pump_write never hits the duplicate-id insertion failure
(the panic branch of the expect "Request IDs should be unique" in
write_request, modelled as the none result) and the in-flight insertion
performed for a dequeued request always succeeds. -/
theorem c9_unique_insertion_amended {Req Resp : Type} (cfg : Config) (s : Sys Req Resp)
    (h : Reachable (initSys cfg) s) (hts : s.total_sends ≤ USIZE_MOD) :
    (idsOf s).Nodup
    ∧ pumpWrite s ≠ none
    ∧ ∀ (d : DispatchRequest Req) (s₁ : Sys Req Resp),
        pollNextRequest s = (.item d, s₁) →
        ∃ t, insertRequest s₁.in_flight_requests d.request_id d.ctx d.response_completion
          = some t := by
  obtain ⟨hbound, hnodup, hctr⟩ := reachable_goodIds cfg s h
  have hnd := hnodup hts
  refine ⟨hnd, ?_, ?_⟩
  · intro hnone
    rcases hr : pollNextRequest s with ⟨r, s₁⟩
    cases r with
    | item d =>
      have hpw : pumpWrite s = (writeRequest s₁ d).map (fun s₂ => (.progress, s₂)) := by
        unfold pumpWrite
        rw [hr]
      rw [hpw] at hnone
      have hwnone : writeRequest s₁ d = none := Option.map_eq_none'.1 hnone
      obtain ⟨_, hins⟩ := goodIds_insert_ok s hnd d s₁ hr
      unfold writeRequest at hwnone
      rw [hins] at hwnone
      cases hwnone
    | pending =>
      have hpw := pumpWrite_eq_rest s _ s₁ hr (Or.inl rfl)
      rw [hpw] at hnone
      have hsome := pumpWriteRest_isSome s₁
        (PollRecv.isClosed (.pending : PollRecv (DispatchRequest Req)))
      rw [hnone] at hsome
      cases hsome
    | closed =>
      have hpw := pumpWrite_eq_rest s _ s₁ hr (Or.inr rfl)
      rw [hpw] at hnone
      have hsome := pumpWriteRest_isSome s₁
        (PollRecv.isClosed (.closed : PollRecv (DispatchRequest Req)))
      rw [hnone] at hsome
      cases hsome
  · intro d s₁ hpn
    obtain ⟨_, hins⟩ := goodIds_insert_ok s hnd d s₁ hpn
    exact ⟨_, hins⟩

theorem c9_unique_insertion_amended_witness :
    (idsOf (initSys wCfg : Sys Unit Unit)).Nodup
    ∧ pumpWrite (initSys wCfg : Sys Unit Unit) ≠ none
    ∧ ∀ (d : DispatchRequest Unit) (s₁ : Sys Unit Unit),
        pollNextRequest (initSys wCfg : Sys Unit Unit) = (.item d, s₁) →
        ∃ t, insertRequest s₁.in_flight_requests d.request_id d.ctx d.response_completion
          = some t :=
  c9_unique_insertion_amended wCfg (initSys wCfg) Relation.ReflTransGen.refl (Nat.zero_le _)

/-- Configuration for the wrap counterexample: room for two in-flight
requests and a one-slot pending buffer. -/
def c9Cfg : Config := { max_in_flight_requests := 2, pending_request_buffer := 1 }

/-- A call context that is a fixed point of the send-time trace rewrite
(span 0 with parent 0, rewritten with the fresh-span oracle returning 0),
whose deadline 1 never expires while the clock stays at 0. -/
def c9Ctx : Context :=
  { deadline := 1, trace_context := { trace_id := 0, span_id := 0, parent_id := some 0 } }

/-- The oneshot slot freshly created by a send, before any delivery. -/
def c9OpenSlot (id : Nat) : Slot Unit :=
  { recv := none, closed := false, senderGone := false, complete := false, request_id := id }

/-- The server response completing request number k. -/
def c9Resp (k : Nat) : Response Unit := { request_id := k % USIZE_MOD, message := .ok () }

/-- The slot of request number k after its response was delivered. -/
def c9DoneSlot (k : Nat) : Slot Unit :=
  { recv := some (c9Resp k), closed := false, senderGone := true, complete := false,
    request_id := k % USIZE_MOD }

/-- The slot arena after n sends in the counterexample run: slot 0 stays
open forever; slots 1 .. n-1 have had their responses delivered. -/
def c9Slots : Nat → List (Slot Unit)
  | 0 => []
  | 1 => [c9OpenSlot 0]
  | n + 2 => c9Slots (n + 1) ++ [c9DoneSlot (n + 1)]

/-- The request staged by send number k of the counterexample run. -/
def c9Req (k : Nat) : DispatchRequest Unit :=
  { ctx := c9Ctx, request_id := k % USIZE_MOD, request := (), response_completion := k }

/-- The Request frame written for send number k. -/
def c9Frame (k : Nat) : ClientMessage Unit := requestFrame (c9Req k)

/-- The transport log after n requests were written. -/
def c9Sent (n : Nat) : List (ClientMessage Unit) := (List.range n).map c9Frame

/-- The in-flight entry of request 0, which is never completed. -/
def c9Entry0 : InFlightEntry := { ctx := c9Ctx, slot := 0 }

/-- The quiescent loop state after j + 1 sends: request 0 still in flight,
requests 1 .. j sent and completed, queues empty. -/
def c9L (j : Nat) : Sys Unit Unit :=
  { config := c9Cfg, next_request_id := (j + 1) % USIZE_MOD, total_sends := j + 1,
    slots := c9Slots (j + 1), pending_requests := [], pending_closed := false,
    canceled_requests := [], canceled_closed := false,
    in_flight_requests := [(0, c9Entry0)], sent := c9Sent (j + 1), incoming := [],
    read_closed := false, now := 0 }

/-- The request staged by send number j + 1, with its slot index expressed
as the arena length (the form Channel::send produces). -/
def c9ReqA (j : Nat) : DispatchRequest Unit :=
  { ctx := c9Ctx, request_id := (j + 1) % USIZE_MOD, request := (),
    response_completion := (c9Slots (j + 1)).length }

/-- The state right after send number j + 1 was staged from c9L j. -/
def c9A (j : Nat) : Sys Unit Unit :=
  { c9L j with
    next_request_id := ((j + 1) % USIZE_MOD + 1) % USIZE_MOD,
    total_sends := j + 2,
    slots := c9Slots (j + 1) ++ [c9OpenSlot ((j + 1) % USIZE_MOD)],
    pending_requests := [c9ReqA j] }

lemma c9_send_eq (j : Nat) :
    channelSend (c9L j) c9Ctx () 0 = .ok (c9A j, (j + 1) % USIZE_MOD) := rfl

/-- The in-flight entry created for send number j + 1. -/
def c9EntryA (j : Nat) : InFlightEntry := { ctx := c9Ctx, slot := (c9Slots (j + 1)).length }

/-- The state after the dispatcher wrote request j + 1: two entries in
flight, the new frame on the transport. -/
def c9B (j : Nat) : Sys Unit Unit :=
  { c9L j with
    next_request_id := ((j + 1) % USIZE_MOD + 1) % USIZE_MOD,
    total_sends := j + 2,
    slots := c9Slots (j + 1) ++ [c9OpenSlot ((j + 1) % USIZE_MOD)],
    in_flight_requests := [(0, c9Entry0), ((j + 1) % USIZE_MOD, c9EntryA j)],
    sent := c9Sent (j + 1) ++ [c9Frame (j + 1)] }

lemma c9_pollNextRequest_A (j : Nat) :
    pollNextRequest (c9A j)
      = (.item (c9ReqA j),
         { c9A j with pending_requests := ([] : List (DispatchRequest Unit)) }) := by
  have hsc : slotClosed (c9A j).slots (c9ReqA j).response_completion = false := by
    show slotClosed (c9Slots (j + 1) ++ [c9OpenSlot ((j + 1) % USIZE_MOD)])
      ((c9Slots (j + 1)).length) = false
    unfold slotClosed
    rw [List.getElem?_concat_length]
    rfl
  unfold pollNextRequest
  rw [if_neg
    (fun (h : (c9A j).in_flight_requests.length ≥ (c9A j).config.max_in_flight_requests) =>
      Nat.not_succ_le_self 1 h)]
  show pollNextRequestGo (c9A j) [c9ReqA j] = _
  simp only [pollNextRequestGo, hsc, Bool.false_eq_true, if_false]

lemma c9_pumpWrite_A (j : Nat) (hj0 : (j + 1) % USIZE_MOD ≠ 0) :
    pumpWrite (c9A j) = some (.progress, c9B j) := by
  have hlk : lookupEntry
      ({ c9A j with pending_requests := ([] : List (DispatchRequest Unit)) }).in_flight_requests
      (c9ReqA j).request_id = none := by
    show lookupEntry [(0, c9Entry0)] ((j + 1) % USIZE_MOD) = none
    unfold lookupEntry
    rw [if_neg (fun h => hj0 h.symm)]
    rfl
  have hwr : writeRequest
      ({ c9A j with pending_requests := ([] : List (DispatchRequest Unit)) })
      (c9ReqA j) = some (c9B j) := by
    unfold writeRequest insertRequest
    rw [hlk]
    rfl
  unfold pumpWrite
  rw [c9_pollNextRequest_A]
  dsimp only
  rw [hwr]
  rfl

lemma c9_pollIter_A (j : Nat) (hj0 : (j + 1) % USIZE_MOD ≠ 0) :
    pollIter (c9A j) = some (.again, c9B j) := by
  have hpr : pumpRead (c9A j) = (.pending, c9A j) := rfl
  unfold pollIter
  dsimp only
  rw [hpr]
  dsimp only
  rw [c9_pumpWrite_A j hj0]
  rfl

/-- The state after the server responded to request j + 1. -/
def c9C (j : Nat) : Sys Unit Unit := { c9B j with incoming := [c9Resp (j + 1)] }

/-- The quiescent state reached after the response to request j + 1 was
read and completed (equal to c9L (j + 1) up to counter arithmetic). -/
def c9R (j : Nat) : Sys Unit Unit :=
  { c9L j with
    next_request_id := ((j + 1) % USIZE_MOD + 1) % USIZE_MOD,
    total_sends := j + 2,
    slots := c9Slots (j + 1) ++ [c9DoneSlot (j + 1)],
    sent := c9Sent (j + 1) ++ [c9Frame (j + 1)] }

lemma set_concat_length {α : Type} (l : List α) (b v : α) :
    (l ++ [b]).set l.length v = l ++ [v] := by
  induction l with
  | nil => rfl
  | cons a t ih =>
    show a :: (t ++ [b]).set t.length v = a :: (t ++ [v])
    rw [ih]

lemma c9Sent_succ (n : Nat) : c9Sent (n + 1) = c9Sent n ++ [c9Frame n] := by
  unfold c9Sent
  rw [List.range_succ, List.map_append]
  rfl

lemma c9_completeRequest_eq (j : Nat) (hj0 : (j + 1) % USIZE_MOD ≠ 0) :
    completeRequest { c9C j with incoming := ([] : List (Response Unit)) } (c9Resp (j + 1))
      = (true, c9R j) := by
  have hlk : lookupEntry
      ({ c9C j with incoming := ([] : List (Response Unit)) }).in_flight_requests
      (c9Resp (j + 1)).request_id = some (c9EntryA j) := by
    show lookupEntry [(0, c9Entry0), ((j + 1) % USIZE_MOD, c9EntryA j)] ((j + 1) % USIZE_MOD)
      = some (c9EntryA j)
    simp only [lookupEntry]
    rw [if_neg (fun h => hj0 h.symm), if_pos trivial]
  have hrm : removeEntry
      ({ c9C j with incoming := ([] : List (Response Unit)) }).in_flight_requests
      (c9Resp (j + 1)).request_id = [(0, c9Entry0)] := by
    show removeEntry [(0, c9Entry0), ((j + 1) % USIZE_MOD, c9EntryA j)] ((j + 1) % USIZE_MOD)
      = [(0, c9Entry0)]
    simp only [removeEntry]
    rw [if_neg (fun h => hj0 h.symm), if_pos trivial]
  have hdel : deliverAt
      ({ c9C j with incoming := ([] : List (Response Unit)) }).slots
      (c9EntryA j).slot (c9Resp (j + 1)) = c9Slots (j + 1) ++ [c9DoneSlot (j + 1)] := by
    show deliverAt (c9Slots (j + 1) ++ [c9OpenSlot ((j + 1) % USIZE_MOD)])
      ((c9Slots (j + 1)).length) (c9Resp (j + 1)) = c9Slots (j + 1) ++ [c9DoneSlot (j + 1)]
    unfold deliverAt
    rw [List.getElem?_concat_length]
    dsimp only
    rw [set_concat_length]
    rfl
  unfold completeRequest
  rw [hlk]
  dsimp only
  rw [hrm, hdel]
  rfl

lemma c9_R_eq_L (j : Nat) : c9R j = c9L (j + 1) := by
  unfold c9R c9L
  rw [succ_mod_eq, ← c9Sent_succ]
  rfl

lemma c9_pollIter_C (j : Nat) (hj0 : (j + 1) % USIZE_MOD ≠ 0) :
    pollIter (c9C j) = some (.again, c9L (j + 1)) := by
  have hpr0 : pumpRead (c9C j)
      = (.progress,
         (completeRequest { c9C j with incoming := ([] : List (Response Unit)) }
           (c9Resp (j + 1))).2) := rfl
  have hpr : pumpRead (c9C j) = (.progress, c9R j) := by
    rw [hpr0, c9_completeRequest_eq j hj0]
  have hpw : pumpWrite (c9R j)
      = some (.pending,
          { c9R j with
            pending_requests := ([] : List (DispatchRequest Unit)),
            canceled_requests := ([] : List Nat) }) := rfl
  unfold pollIter
  dsimp only
  rw [hpr]
  dsimp only
  rw [hpw]
  dsimp only
  rw [c9_R_eq_L]
  rfl

lemma c9_loop (j : Nat) (hj0 : (j + 1) % USIZE_MOD ≠ 0) : Reachable (c9L j) (c9L (j + 1)) := by
  have h1 : Step (c9L j) (c9A j) :=
    Step.send (c9L j) c9Ctx () 0 (c9A j) ((j + 1) % USIZE_MOD)
      (Nat.zero_lt_one) (c9_send_eq j)
  have h2 : Step (c9A j) (c9B j) :=
    Step.pollStep (c9A j) .again (c9B j) (c9_pollIter_A j hj0)
  have h3 : Step (c9B j) (c9C j) := by
    refine Step.respond (c9B j) (c9Resp (j + 1))
      { id := (j + 1) % USIZE_MOD, message := (), context := c9Ctx } ?_ rfl
    show ClientMessage.request _ ∈ c9Sent (j + 1) ++ [c9Frame (j + 1)]
    exact List.mem_append_right _ (List.mem_singleton.2 rfl)
  have h4 : Step (c9C j) (c9L (j + 1)) :=
    Step.pollStep (c9C j) .again (c9L (j + 1)) (c9_pollIter_C j hj0)
  exact Relation.ReflTransGen.head h1 (Relation.ReflTransGen.head h2
    (Relation.ReflTransGen.head h3 (Relation.ReflTransGen.head h4 Relation.ReflTransGen.refl)))

/-- The state after the very first send of the counterexample run. -/
def c9S1 : Sys Unit Unit :=
  { config := c9Cfg, next_request_id := 1 % USIZE_MOD, total_sends := 1,
    slots := [c9OpenSlot 0],
    pending_requests := [{ ctx := c9Ctx, request_id := 0, request := (),
                           response_completion := 0 }],
    pending_closed := false, canceled_requests := [], canceled_closed := false,
    in_flight_requests := [], sent := [], incoming := [], read_closed := false, now := 0 }

lemma c9_reach (j : Nat) : j + 1 ≤ USIZE_MOD →
    Reachable (initSys c9Cfg : Sys Unit Unit) (c9L j) := by
  induction j with
  | zero =>
    intro _
    have h1 : Step (initSys c9Cfg : Sys Unit Unit) c9S1 :=
      Step.send (initSys c9Cfg) c9Ctx () 0 c9S1 0 (by decide) (by decide)
    have h2 : Step c9S1 (c9L 0) :=
      Step.pollStep c9S1 .again (c9L 0) (by decide)
    exact Relation.ReflTransGen.head h1
      (Relation.ReflTransGen.head h2 Relation.ReflTransGen.refl)
  | succ j ih =>
    intro hj
    have hj' : j + 1 ≤ USIZE_MOD := Nat.le_of_succ_le hj
    have hj0 : (j + 1) % USIZE_MOD ≠ 0 := by
      have hlt : j + 1 < USIZE_MOD := hj
      rw [Nat.mod_eq_of_lt hlt]
      omega
    exact Relation.ReflTransGen.trans (ih hj') (c9_loop j hj0)

/-- The state reached after send number 2 ^ 64 (the 2 ^ 64 + 1-st send of
the channel) was staged while request 0 is still in flight: the wrapped
counter hands out id 0 a second time. -/
def c9Bad : Sys Unit Unit := c9A (USIZE_MOD - 1)

lemma c9_sub_add : (USIZE_MOD - 1) + 1 = USIZE_MOD := by
  have h1 := one_lt_USIZE_MOD
  omega

lemma c9_wrap_id : ((USIZE_MOD - 1) + 1) % USIZE_MOD = 0 := by
  rw [c9_sub_add, Nat.mod_self]

lemma c9_pumpWrite_wrap (j : Nat) (hj0 : (j + 1) % USIZE_MOD = 0) :
    pumpWrite (c9A j) = none := by
  have hlk : lookupEntry
      ({ c9A j with
         pending_requests := ([] : List (DispatchRequest Unit)) }).in_flight_requests
      (c9ReqA j).request_id = some c9Entry0 := by
    show lookupEntry [(0, c9Entry0)] ((j + 1) % USIZE_MOD) = some c9Entry0
    rw [hj0]
    rw [show lookupEntry [(0, c9Entry0)] 0 = some c9Entry0 from rfl]
  have hwr : writeRequest
      ({ c9A j with
         pending_requests := ([] : List (DispatchRequest Unit)) })
      (c9ReqA j) = none := by
    unfold writeRequest insertRequest
    rw [hlk]
    rfl
  unfold pumpWrite
  rw [c9_pollNextRequest_A]
  dsimp only
  rw [hwr]
  rfl

lemma c9_pollIter_wrap (j : Nat) (hj0 : (j + 1) % USIZE_MOD = 0) :
    pollIter (c9A j) = none := by
  have hpr : pumpRead (c9A j) = (.pending, c9A j) := rfl
  unfold pollIter
  dsimp only
  rw [hpr]
  dsimp only
  rw [c9_pumpWrite_wrap j hj0]

/-- C9 counterexample: after 2 ^ 64 + 1 sends the fetch-add counter has
wrapped and handed out request id 0 twice; in the reachable state c9Bad
the staged request carries id 0 while an entry for id 0 is still in
flight, so pump_write hits the duplicate-id insertion failure in
write_request: the expect "Request IDs should be unique" fires (modelled
as the none result of pump_write and of the dispatcher poll iteration). -/
theorem c9_counterexample_duplicate_id :
    Reachable (initSys c9Cfg : Sys Unit Unit) c9Bad
    ∧ c9Bad.total_sends = USIZE_MOD + 1
    ∧ c9Bad.pending_requests = [c9ReqA (USIZE_MOD - 1)]
    ∧ (c9ReqA (USIZE_MOD - 1)).request_id = 0
    ∧ lookupEntry c9Bad.in_flight_requests 0 = some c9Entry0
    ∧ pumpWrite c9Bad = none
    ∧ pollIter c9Bad = none := by
  refine ⟨?_, ?_, rfl, c9_wrap_id, rfl,
    c9_pumpWrite_wrap (USIZE_MOD - 1) c9_wrap_id,
    c9_pollIter_wrap (USIZE_MOD - 1) c9_wrap_id⟩
  · have hr1 := c9_reach (USIZE_MOD - 1) (Nat.le_of_eq c9_sub_add)
    have hs : Step (c9L (USIZE_MOD - 1)) c9Bad :=
      Step.send (c9L (USIZE_MOD - 1)) c9Ctx () 0 c9Bad
        (((USIZE_MOD - 1) + 1) % USIZE_MOD) Nat.zero_lt_one (c9_send_eq (USIZE_MOD - 1))
    exact Relation.ReflTransGen.tail hr1 hs
  · show (USIZE_MOD - 1) + 2 = USIZE_MOD + 1
    have h1 := one_lt_USIZE_MOD
    omega
